import Mathlib

/-!
# Expense-Tracker: session manager, request gateway and expense dataset manager

A shallow embedding of `src/js/api.js`, `src/js/auth.js` and `src/js/expenses.js`.

* Asynchronous methods are embedded as functions from the state before the call and the
  outcome of the awaited remote call to the state after the call and the returned value.
* A `try { ... } catch (error) { ... }` block is embedded with `Except JsError`: the
  `.error` branch is the `catch` block.
* `auth.showNotification(message, type)` only touches the DOM; it is embedded as the list of
  notifications an operation emits.
-/

namespace ExpenseTracker

/-! ## Errors and notifications -/

/-- A thrown JavaScript `Error`, identified by its `message`. -/
structure JsError where
  message : String
deriving DecidableEq, Repr

/-- One call `showNotification(message, type)`. -/
structure Notification where
  message : String
  type : String
deriving DecidableEq, Repr

/-- The effect of one method call: the object state afterwards, the notifications emitted
and the value returned to the caller. -/
structure Step (σ ρ : Type) where
  state : σ
  notifications : List Notification
  result : ρ

/-! ## Expense dataset manager (`src/js/expenses.js`) -/

/-- An expense record, as held in `this.expenses`. `description` is optional. -/
structure Expense where
  _id : String
  amount : ℚ
  category : String
  description : Option String
  date : String
deriving DecidableEq

/-- The mutable state of `ExpenseManager`: the in-memory cache `this.expenses`. -/
structure ExpenseManager where
  expenses : List Expense
deriving DecidableEq

/-- The `constructor` of `ExpenseManager`: the cache starts empty. -/
def ExpenseManager.new : ExpenseManager := ⟨[]⟩

/-- Payload of `GET /expenses`: `response.expenses` may be missing. -/
structure ExpensesPayload where
  expenses : Option (List Expense)

/-- Payload of `POST /expenses` and `PUT /expenses/:id`: `response.expense`. -/
structure ExpensePayload where
  expense : Expense

/-- Filters of `getExpenses(filters = {})`. -/
structure ListFilters where
  startDate : Option String := none
  endDate : Option String := none
  category : Option String := none

/-- The objects returned by the methods of `ExpenseManager`:
`{success: true, expenses}`, `{success: true, expense}`, `{success: true}` and
`{success: false, error}`. -/
inductive ExpenseResult where
  | successExpenses (expenses : List Expense)
  | successExpense (expense : Expense)
  | success
  | failure (error : String)
deriving DecidableEq

/-- The `success` field of a result object. -/
def ExpenseResult.isSuccess : ExpenseResult → Bool
  | .failure _ => false
  | _ => true

/-- The `catch (error)` block shared by the methods of `ExpenseManager`:
`auth.showNotification(error.message, 'error'); return { success: false, error: error.message }`.
The state is the one before the call. -/
def catchError (m : ExpenseManager) (error : JsError) : Step ExpenseManager ExpenseResult :=
  { state := m
    notifications := [⟨error.message, "error"⟩]
    result := .failure error.message }

/-- `getExpenses(filters)`; `response` is the outcome of `await api.get(...)`. The query
string built from `filters` only goes into the request. -/
def getExpenses (m : ExpenseManager) (_filters : ListFilters)
    (response : Except JsError ExpensesPayload) : Step ExpenseManager ExpenseResult :=
  match response with
  | .ok response =>
    -- this.expenses = response.expenses || [];
    let expenses := response.expenses.getD []
    { state := { m with expenses := expenses }
      notifications := []
      result := .successExpenses expenses }
  | .error error => catchError m error

/-- `createExpense(expenseData)`; `response` is the outcome of
`await api.post('/expenses', expenseData)`. -/
def createExpense (m : ExpenseManager) (response : Except JsError ExpensePayload) :
    Step ExpenseManager ExpenseResult :=
  match response with
  | .ok response =>
    -- this.expenses.unshift(response.expense);
    { state := { m with expenses := response.expense :: m.expenses }
      notifications := [⟨"Expense added successfully!", "success"⟩]
      result := .successExpense response.expense }
  | .error error => catchError m error

/-- `Array.prototype.findIndex`: the index of the first element satisfying `p`;
`none` stands for `-1`. -/
def findIndex {α : Type} (p : α → Bool) : List α → Option Nat
  | [] => none
  | x :: xs => if p x then some 0 else (findIndex p xs).map (· + 1)

/-- `updateExpense(id, updates)`; `response` is the outcome of
`await api.put('/expenses/' + id, updates)`. -/
def updateExpense (m : ExpenseManager) (id : String)
    (response : Except JsError ExpensePayload) : Step ExpenseManager ExpenseResult :=
  match response with
  | .ok response =>
    -- const index = this.expenses.findIndex(e => e._id === id);
    let index := findIndex (fun e => e._id == id) m.expenses
    -- if (index !== -1) { this.expenses[index] = response.expense; }
    let expenses :=
      match index with
      | some i => m.expenses.set i response.expense
      | none => m.expenses
    { state := { m with expenses := expenses }
      notifications := [⟨"Expense updated!", "success"⟩]
      result := .successExpense response.expense }
  | .error error => catchError m error

/-- `deleteExpense(id)`; `response` is the outcome of `await api.delete('/expenses/' + id)`,
whose payload is not used. -/
def deleteExpense (m : ExpenseManager) (id : String) (response : Except JsError Unit) :
    Step ExpenseManager ExpenseResult :=
  match response with
  | .ok _ =>
    -- this.expenses = this.expenses.filter(e => e._id !== id);
    { state := { m with expenses := m.expenses.filter (fun e => e._id != id) }
      notifications := [⟨"Expense deleted!", "success"⟩]
      result := .success }
  | .error error => catchError m error

/-- Number of cache entries whose `_id` is `id`. -/
def idCount (id : String) (cache : List Expense) : Nat :=
  cache.countP (fun e => e._id == id)

/-- A search criteria object `{category?, startDate?, endDate?, search?}`; an absent field
is `undefined`. -/
structure FilterCriteria where
  category : Option String := none
  startDate : Option String := none
  endDate : Option String := none
  search : Option String := none

/-! ## JavaScript values and built-ins -/

/-- A JavaScript value as produced by `JSON.parse`, or `undefined`. -/
inductive JsVal where
  | undefined
  | null
  | bool (b : Bool)
  | num (n : ℚ)
  | str (s : String)
  | arr (items : List JsVal)
  | obj (fields : List (String × JsVal))

/-- Built-ins of the JavaScript engine that the program calls and whose result is fixed by
the engine, not by this repository. -/
structure Runtime where
  /-- The string conversion of a number, an array or an object. -/
  toStringOther : JsVal → String
  /-- The function `JSON.stringify`; `none` is `undefined`. -/
  jsonStringify : JsVal → Option String
  /-- The function `JSON.parse`, which throws on malformed text. -/
  jsonParse : String → Except JsError JsVal
  /-- The `TypeError` thrown when a property of `undefined` or `null` is read. -/
  propertyError : JsVal → String → JsError
  /-- The time value of `new Date(s)`; `none` is `NaN` (an invalid date). -/
  parseDate : String → Option Int
  /-- The method `String.prototype.toLowerCase`. -/
  toLowerCase : String → String
  /-- The method `String.prototype.localeCompare`: negative, zero or positive. -/
  localeCompare : String → String → Int
  /-- The sum `x + y` of two numbers as the engine computes it: the exact sum rounded to
  the nearest double. Sums are taken to stay within the range of doubles. -/
  add : ℚ → ℚ → ℚ
  /-- The string conversion of a number. -/
  numberToString : ℚ → String
  /-- The string conversion of the property that every object inherits from
  `Object.prototype` under a name, such as `constructor`, `toString` or `__proto__`;
  `none` when nothing is inherited under that name. -/
  inheritedText : String → Option String

/-- JavaScript truthiness (`if (v)`, `!!v`, `v || w`). -/
def JsVal.truthy : JsVal → Bool
  | .undefined => false
  | .null => false
  | .bool b => b
  | .num n => n != 0
  | .str s => s != ""
  | .arr _ => true
  | .obj _ => true

/-- String conversion of a value, as done by `localStorage.setItem` and `new Error(v)`. -/
def JsVal.toStr (rt : Runtime) : JsVal → String
  | .undefined => "undefined"
  | .null => "null"
  | .bool true => "true"
  | .bool false => "false"
  | .str s => s
  | v => rt.toStringOther v

/-- The property read `v.name`, for the names this program reads from a payload
(`token`, `user`, `message`), none of which is a built-in property of a primitive or of an
array: a missing property is `undefined`, and reading from `undefined` or `null` throws. -/
def JsVal.getField (rt : Runtime) (v : JsVal) (name : String) : Except JsError JsVal :=
  match v with
  | .undefined => .error (rt.propertyError .undefined name)
  | .null => .error (rt.propertyError .null name)
  | .obj fields => .ok ((fields.lookup name).getD .undefined)
  | _ => .ok .undefined

/-- Truthiness of an optional string: `undefined` and `""` are falsy. -/
def truthyStr : Option String → Bool
  | some s => s != ""
  | none => false

/-- The method `haystack.includes(needle)`: `needle` occurs as a contiguous part. -/
def includes (haystack needle : String) : Bool :=
  decide (needle.data <:+: haystack.data)

/-- The comparison `new Date(x) < new Date(y)`: false when either date is invalid. -/
def dateLt (rt : Runtime) (x y : String) : Bool :=
  match rt.parseDate x, rt.parseDate y with
  | some a, some b => decide (a < b)
  | _, _ => false

/-- The constant `matchesSearch` of the callback of `filterExpenses`:
`expense.description?.toLowerCase().includes(searchLower) ||
expense.category.toLowerCase().includes(searchLower)`. -/
def matchesSearch (rt : Runtime) (expense : Expense) (searchLower : String) : Bool :=
  (match expense.description with
    | some d => includes (rt.toLowerCase d) searchLower
    | none => false)
  || includes (rt.toLowerCase expense.category) searchLower

/-- The callback of `filterExpenses`, for one `expense`. -/
def matchesCriteria (rt : Runtime) (criteria : FilterCriteria) (expense : Expense) : Bool :=
  let match0 := true
  -- if (criteria.category && expense.category !== criteria.category) match = false;
  let match1 :=
    match criteria.category with
    | some c => if c != "" && expense.category != c then false else match0
    | none => match0
  -- if (criteria.startDate && new Date(expense.date) < new Date(criteria.startDate)) match = false;
  let match2 :=
    match criteria.startDate with
    | some s => if s != "" && dateLt rt expense.date s then false else match1
    | none => match1
  -- if (criteria.endDate && new Date(expense.date) > new Date(criteria.endDate)) match = false;
  let match3 :=
    match criteria.endDate with
    | some s => if s != "" && dateLt rt s expense.date then false else match2
    | none => match2
  -- if (criteria.search) { ... if (!matchesSearch) match = false; }
  match criteria.search with
  | some search =>
    if search != "" then
      let searchLower := rt.toLowerCase search
      let matchesSearch := matchesSearch rt expense searchLower
      if !matchesSearch then false else match3
    else match3
  | none => match3

/-- `filterExpenses(criteria)`: `this.expenses.filter(expense => ...)`. -/
def filterExpenses (rt : Runtime) (m : ExpenseManager) (criteria : FilterCriteria) :
    List Expense :=
  m.expenses.filter (matchesCriteria rt criteria)

/-! ## Categories, totals and sorting (`src/js/expenses.js`, continued) -/

/-- An entry of `this.categories`. -/
structure Category where
  id : String
  name : String
  icon : String
  color : String
deriving DecidableEq

/-- The array `this.categories` set by the `constructor` and never changed. -/
def categories : List Category :=
  [
    { id := "food", name := "Food & Dining", icon := "🍔", color := "#f59e0b" },
    { id := "transport", name := "Transportation", icon := "🚗", color := "#3b82f6" },
    { id := "shopping", name := "Shopping", icon := "🛍️", color := "#ec4899" },
    { id := "entertainment", name := "Entertainment", icon := "🎬", color := "#8b5cf6" },
    { id := "bills", name := "Bills & Utilities", icon := "💡", color := "#ef4444" },
    { id := "health", name := "Health & Medical", icon := "⚕️", color := "#10b981" },
    { id := "education", name := "Education", icon := "📚", color := "#6366f1" },
    { id := "other", name := "Other", icon := "📦", color := "#6b7280" }
  ]

/-- `getCategory(categoryId)`:
`this.categories.find(c => c.id === categoryId) || this.categories[7]`. -/
def getCategory (categoryId : String) : Category :=
  match categories.find? (fun c => c.id == categoryId) with
  | some c => c
  | none => categories.get ⟨7, by decide⟩

/-- The value of a property of `byCategory`: a number, or a string when the additions for a
category started from an inherited property. -/
inductive PropertyValue where
  | num (n : ℚ)
  | text (s : String)
deriving DecidableEq

/-- The object returned by `calculateTotals()`. The object `byCategory`, created by `{}`,
is the list of its own properties in the order of their creation; it inherits the
properties of `Object.prototype`. -/
structure Totals where
  total : ℚ
  byCategory : List (String × PropertyValue)

/-- What the property read `byCategory[cat]` finds: an own property, a property inherited
from `Object.prototype` (an object, given by its string conversion), or nothing. -/
inductive PropertyRead where
  | own (value : PropertyValue)
  | inherited (text : String)
  | undefined

/-- The property read `byCategory[cat]`. -/
def getProperty (rt : Runtime) (object : List (String × PropertyValue)) (key : String) :
    PropertyRead :=
  match object.lookup key with
  | some value => .own value
  | none =>
    match rt.inheritedText key with
    | some text => .inherited text
    | none => .undefined

/-- The expression `(read || 0) + amount`: a number that is `0` and an empty string are
falsy, an object is truthy, and adding a number to a string or to an object appends the
string conversion of the number. -/
def orZeroPlus (rt : Runtime) (read : PropertyRead) (amount : ℚ) : PropertyValue :=
  match read with
  | .own (.num v) => if v != 0 then .num (rt.add v amount) else .num (rt.add 0 amount)
  | .own (.text s) =>
    if s != "" then .text (s ++ rt.numberToString amount) else .num (rt.add 0 amount)
  | .inherited text => .text (text ++ rt.numberToString amount)
  | .undefined => .num (rt.add 0 amount)

/-- Creation or update of an own property: an existing property keeps its place, a new one
is created last. -/
def putOwn {α : Type} (object : List (String × α)) (key : String) (value : α) :
    List (String × α) :=
  match object with
  | [] => [(key, value)]
  | (k, v) :: rest =>
    if k = key then (k, value) :: rest else (k, v) :: putOwn rest key value

/-- The assignment `byCategory[cat] = value` of a number or a string. The name `__proto__`
is an accessor inherited from `Object.prototype`: assigning a number or a string to it
creates no property. -/
def setProperty (object : List (String × PropertyValue)) (key : String)
    (value : PropertyValue) : List (String × PropertyValue) :=
  if key = "__proto__" then object else putOwn object key value

/-- The callback of `this.expenses.forEach` in `calculateTotals`:
`byCategory[cat] = (byCategory[cat] || 0) + expense.amount`. -/
def addToCategory (rt : Runtime) (byCategory : List (String × PropertyValue))
    (expense : Expense) : List (String × PropertyValue) :=
  let cat := expense.category
  setProperty byCategory cat (orZeroPlus rt (getProperty rt byCategory cat) expense.amount)

/-- `calculateTotals()`. -/
def calculateTotals (rt : Runtime) (m : ExpenseManager) : Totals :=
  -- const total = this.expenses.reduce((sum, exp) => sum + exp.amount, 0);
  let total := m.expenses.foldl (fun sum exp => rt.add sum exp.amount) 0
  -- const byCategory = {}; this.expenses.forEach(expense => { ... });
  let byCategory := m.expenses.foldl (addToCategory rt) []
  { total := total, byCategory := byCategory }

/-- The value `comparison` computed by the callback of `sortExpenses`; `none` is `NaN`,
the difference of two dates of which one is invalid. -/
def sortComparison (rt : Runtime) (sortBy : String) (a b : Expense) : Option ℚ :=
  if sortBy = "date" then
    -- comparison = new Date(a.date) - new Date(b.date);
    match rt.parseDate a.date, rt.parseDate b.date with
    | some x, some y => some ((x : ℚ) - (y : ℚ))
    | _, _ => none
  else if sortBy = "amount" then
    -- comparison = a.amount - b.amount;
    some (a.amount - b.amount)
  else if sortBy = "category" then
    -- comparison = a.category.localeCompare(b.category);
    some (rt.localeCompare a.category b.category : ℚ)
  else
    some 0

/-- The callback of `sortExpenses`: `order === 'desc' ? -comparison : comparison`. -/
def sortCallback (rt : Runtime) (sortBy order : String) (a b : Expense) : Option ℚ :=
  if order = "desc" then (sortComparison rt sortBy a b).map (fun c => -c)
  else sortComparison rt sortBy a b

/-- The comparison that `Array.prototype.sort` derives from its callback: a result that is
`NaN` counts as `0`. -/
def sortCompare {α : Type} (comparefn : α → α → Option ℚ) (a b : α) : ℚ :=
  (comparefn a b).getD 0

/-- `Array.prototype.sort(comparefn)` on a fresh copy of the array. The sort is stable: an
element is placed before the first element it does not compare greater than, so elements
that compare equal keep their order. For a callback that is not a consistent comparator the
language leaves the order to the engine; the order computed here is that of this stable
insertion. -/
def arraySort {α : Type} (comparefn : α → α → Option ℚ) (array : List α) : List α :=
  array.insertionSort (fun a b => sortCompare comparefn a b ≤ 0)

/-- `sortExpenses(expenses, sortBy = 'date', order = 'desc')`: `[...expenses].sort(...)`. -/
def sortExpenses (rt : Runtime) (expenses : List Expense) (sortBy : String := "date")
    (order : String := "desc") : List Expense :=
  arraySort (sortCallback rt sortBy order) expenses

/-! ## Sorting, in the words of the specification -/

/-- The value of key `k` of `a` is not greater than that of `b`: dates and amounts compared
as numbers, categories as strings by `localeCompare`. -/
def KeyLe (rt : Runtime) (k : String) (a b : Expense) : Prop :=
  if k = "date" then
    ∃ x y, rt.parseDate a.date = some x ∧ rt.parseDate b.date = some y ∧ x ≤ y
  else if k = "amount" then a.amount ≤ b.amount
  else if k = "category" then rt.localeCompare a.category b.category ≤ 0
  else True

/-- The elements `a` and `b` do not tie under key `k`: their dates are valid and denote
different times, their amounts differ, or their categories do not compare equal. -/
def NoTie (rt : Runtime) (k : String) (a b : Expense) : Prop :=
  if k = "date" then
    ∃ x y, rt.parseDate a.date = some x ∧ rt.parseDate b.date = some y ∧ x ≠ y
  else if k = "amount" then a.amount ≠ b.amount
  else if k = "category" then rt.localeCompare a.category b.category ≠ 0
  else False

/-- Every date of the list is a valid date. -/
def ValidDates (rt : Runtime) (l : List Expense) : Prop :=
  ∀ e ∈ l, ∃ t, rt.parseDate e.date = some t

/-- The method `localeCompare` is a consistent comparator, as the language requires:
swapping the arguments swaps the sign, and the order is transitive. -/
def ConsistentCollation (rt : Runtime) : Prop :=
  (∀ a b, rt.localeCompare a b < 0 ↔ 0 < rt.localeCompare b a) ∧
  (∀ a b c, rt.localeCompare a b ≤ 0 → rt.localeCompare b c ≤ 0 →
    rt.localeCompare a c ≤ 0)

/-- The sum of `amount` over the entries of a cache, as an exact number. -/
def amountSum (l : List Expense) : ℚ :=
  (l.map (fun e => e.amount)).sum

/-- The sum of `amount` over the entries of a cache as the program computes it: added one
by one, from `0`, in cache order, with the addition of the engine. -/
def addedSum (rt : Runtime) (l : List Expense) : ℚ :=
  l.foldl (fun sum e => rt.add sum e.amount) 0

/-- The name `c` is not that of a property every object inherits. -/
def OwnName (rt : Runtime) (c : String) : Prop :=
  rt.inheritedText c = none ∧ c ≠ "__proto__"

/-- Amounts are taken as exact numbers: the addition of the engine rounds nothing. -/
def ExactAddition (rt : Runtime) : Prop :=
  ∀ x y, rt.add x y = x + y

/-- The number held by a property; a string counts for `0`. -/
def PropertyValue.number : PropertyValue → ℚ
  | .num n => n
  | .text _ => 0

/-- The entries of a cache whose category is `c`. -/
def inCategory (c : String) (l : List Expense) : List Expense :=
  l.filter (fun e => e.category == c)

/-! ## Browser state -/

/-- The part of the browser the program reads and writes: `localStorage` and
`window.location.href`. -/
structure Browser where
  localStorage : String → Option String
  location : String

/-- `localStorage.getItem(key)`; `none` is `null`. -/
def Browser.getItem (b : Browser) (key : String) : Option String :=
  b.localStorage key

/-- `localStorage.setItem(key, value)`. -/
def Browser.setItem (b : Browser) (key value : String) : Browser :=
  { b with localStorage := fun k => if k = key then some value else b.localStorage k }

/-- `localStorage.removeItem(key)`. -/
def Browser.removeItem (b : Browser) (key : String) : Browser :=
  { b with localStorage := fun k => if k = key then none else b.localStorage k }

/-- The assignment `window.location.href = url`. -/
def Browser.navigate (b : Browser) (url : String) : Browser :=
  { b with location := url }

/-! ## Request gateway (`src/js/api.js`) -/

/-- The constant `API_BASE_URL`. -/
def API_BASE_URL : String := "http://localhost:5000/api"

/-- The arguments of one call `fetch(url, config)`. -/
structure FetchRequest where
  url : String
  method : Option String
  headers : List (String × String)
  body : Option String

/-- How `fetch` and `response.json()` settle: the `fetch` promise rejects, or a response
with a status arrives, whose body `response.json()` decodes or rejects. -/
inductive FetchOutcome where
  | rejected (error : JsError)
  | response (status : Nat) (json : Except JsError JsVal)

/-- The `options` of `request(endpoint, options = {})`. -/
structure RequestOptions where
  method : Option String := none
  requireAuth : Bool := false
  body : JsVal := .undefined

/-- The getter `response.ok`: the status is in the range 200-299. -/
def statusOk (status : Nat) : Bool :=
  decide (200 ≤ status) && decide (status ≤ 299)

/-- `buildHeaders(requireAuth)`. -/
def ApiClient.buildHeaders (b : Browser) (requireAuth : Bool) : List (String × String) :=
  let headers := [("Content-Type", "application/json")]
  if requireAuth then
    -- const token = this.getToken(); if (token) { headers['Authorization'] = ... }
    match b.getItem "token" with
    | some token =>
      if token != "" then headers ++ [("Authorization", "Bearer " ++ token)] else headers
    | none => headers
  else headers

/-- The `catch (error)` block of `request`: a rejection whose message is
`'Failed to fetch'` is replaced by the network error, any other error is rethrown. -/
def ApiClient.catchRequest (error : JsError) : JsError :=
  if error.message = "Failed to fetch" then
    ⟨"Network error. Please check your connection."⟩
  else error

/-- The `try` block of `request`, given how `fetch` settled. -/
def ApiClient.tryRequest (rt : Runtime) (b : Browser) (outcome : FetchOutcome) :
    Browser × Except JsError JsVal :=
  match outcome with
  | .rejected error => (b, .error error)
  | .response status json =>
    if status = 401 then
      let b := b.removeItem "token"
      let b := b.removeItem "user"
      let b := b.navigate "/login.html"
      (b, .error ⟨"Session expired. Please login again."⟩)
    else
      -- const data = await response.json();
      match json with
      | .error error => (b, .error error)
      | .ok data =>
        if !statusOk status then
          -- throw new Error(data.message || ...)
          match data.getField rt "message" with
          | .error error => (b, .error error)
          | .ok message =>
            if message.truthy then (b, .error ⟨message.toStr rt⟩)
            else (b, .error ⟨"HTTP error! status: " ++ toString status⟩)
        else (b, .ok data)

/-- The `config` that `request` passes to `fetch`, together with the URL. -/
def ApiClient.config (rt : Runtime) (b : Browser) (endpoint : String)
    (options : RequestOptions) : FetchRequest :=
  { url := API_BASE_URL ++ endpoint
    method := options.method
    headers := ApiClient.buildHeaders b options.requireAuth
    -- if (body) { config.body = JSON.stringify(body); }
    body := if options.body.truthy then rt.jsonStringify options.body else none }

/-- `request(endpoint, options)`; `fetch` tells how the remote call settles. -/
def ApiClient.request (rt : Runtime) (fetch : FetchRequest → FetchOutcome) (b : Browser)
    (endpoint : String) (options : RequestOptions) : Browser × Except JsError JsVal :=
  match ApiClient.tryRequest rt b (fetch (ApiClient.config rt b endpoint options)) with
  | (b, .ok data) => (b, .ok data)
  | (b, .error error) => (b, .error (ApiClient.catchRequest error))

/-- `get(endpoint, requireAuth = true)`. -/
def ApiClient.get (rt : Runtime) (fetch : FetchRequest → FetchOutcome) (b : Browser)
    (endpoint : String) (requireAuth : Bool := true) : Browser × Except JsError JsVal :=
  ApiClient.request rt fetch b endpoint { method := some "GET", requireAuth := requireAuth }

/-- `post(endpoint, body, requireAuth = true)`. -/
def ApiClient.post (rt : Runtime) (fetch : FetchRequest → FetchOutcome) (b : Browser)
    (endpoint : String) (body : JsVal) (requireAuth : Bool := true) :
    Browser × Except JsError JsVal :=
  ApiClient.request rt fetch b endpoint
    { method := some "POST", body := body, requireAuth := requireAuth }

/-- `put(endpoint, body, requireAuth = true)`. -/
def ApiClient.put (rt : Runtime) (fetch : FetchRequest → FetchOutcome) (b : Browser)
    (endpoint : String) (body : JsVal) (requireAuth : Bool := true) :
    Browser × Except JsError JsVal :=
  ApiClient.request rt fetch b endpoint
    { method := some "PUT", body := body, requireAuth := requireAuth }

/-- `delete(endpoint, requireAuth = true)`. -/
def ApiClient.delete (rt : Runtime) (fetch : FetchRequest → FetchOutcome) (b : Browser)
    (endpoint : String) (requireAuth : Bool := true) : Browser × Except JsError JsVal :=
  ApiClient.request rt fetch b endpoint { method := some "DELETE", requireAuth := requireAuth }

/-! ## Session manager (`src/js/auth.js`) -/

/-- The fields of `AuthManager`. -/
structure AuthManager where
  user : JsVal
  token : JsVal

/-- The `constructor` followed by `init()`: restores the session from `localStorage`.
The call fails when `JSON.parse` throws. -/
def AuthManager.init (rt : Runtime) (b : Browser) : Except JsError AuthManager :=
  -- this.user = null; this.token = null;
  let a : AuthManager := { user := .null, token := .null }
  -- this.token = localStorage.getItem('token');
  let a := { a with token := match b.getItem "token" with
                             | some t => .str t
                             | none => .null }
  -- const userData = localStorage.getItem('user'); if (userData) { ... }
  match b.getItem "user" with
  | some userData =>
    if userData != "" then
      -- this.user = JSON.parse(userData);
      match rt.jsonParse userData with
      | .ok user => .ok { a with user := user }
      | .error error => .error error
    else .ok a
  | none => .ok a

/-- `isAuthenticated()`: `!!this.token`. -/
def AuthManager.isAuthenticated (a : AuthManager) : Bool :=
  a.token.truthy

/-- `getCurrentUser()`. -/
def AuthManager.getCurrentUser (a : AuthManager) : JsVal :=
  a.user

/-- `setSession(token, user)`. `setItem` stores the string conversion of its argument, and
`JSON.stringify` may give `undefined`. -/
def AuthManager.setSession (rt : Runtime) (_a : AuthManager) (b : Browser)
    (token user : JsVal) : AuthManager × Browser :=
  let a : AuthManager := { token := token, user := user }
  let b := b.setItem "token" (token.toStr rt)
  let b := b.setItem "user" ((rt.jsonStringify user).getD "undefined")
  (a, b)

/-- `clearSession()`. -/
def AuthManager.clearSession (_a : AuthManager) (b : Browser) : AuthManager × Browser :=
  let a : AuthManager := { token := .null, user := .null }
  let b := b.removeItem "token"
  let b := b.removeItem "user"
  (a, b)

/-- The object `{ success: true, user }`. -/
def successUser (user : JsVal) : JsVal :=
  .obj [("success", .bool true), ("user", user)]

/-- The object `{ success: false, error }`. -/
def failureError (error : String) : JsVal :=
  .obj [("success", .bool false), ("error", .str error)]

/-- The body shared by `register` and `login`, which differ in the endpoint and in the
success message. The returned value is `undefined` when the function ends without reaching
a `return`. -/
def AuthManager.authenticate (rt : Runtime) (fetch : FetchRequest → FetchOutcome)
    (endpoint successMessage : String) (a : AuthManager) (b : Browser) (data : JsVal) :
    Step (AuthManager × Browser) JsVal :=
  -- const response = await api.post(endpoint, data, false);
  let (b, response) := ApiClient.post rt fetch b endpoint data false
  -- the try block after the call
  let body : Except JsError (Step (AuthManager × Browser) JsVal) := do
    let response ← response
    let token ← response.getField rt "token"
    if token.truthy then
      let user ← response.getField rt "user"
      let (a, b) := a.setSession rt b token user
      pure { state := (a, b)
             notifications := [⟨successMessage, "success"⟩]
             result := successUser user }
    else
      pure { state := (a, b), notifications := [], result := .undefined }
  match body with
  | .ok step => step
  | .error error =>
    -- this.showNotification(error.message, 'error');
    -- return { success: false, error: error.message };
    { state := (a, b)
      notifications := [⟨error.message, "error"⟩]
      result := failureError error.message }

/-- `register(userData)`. -/
def AuthManager.register (rt : Runtime) (fetch : FetchRequest → FetchOutcome)
    (a : AuthManager) (b : Browser) (userData : JsVal) : Step (AuthManager × Browser) JsVal :=
  AuthManager.authenticate rt fetch "/auth/register" "Account created successfully!" a b
    userData

/-- `login(credentials)`. -/
def AuthManager.login (rt : Runtime) (fetch : FetchRequest → FetchOutcome)
    (a : AuthManager) (b : Browser) (credentials : JsVal) :
    Step (AuthManager × Browser) JsVal :=
  AuthManager.authenticate rt fetch "/auth/login" "Welcome back!" a b credentials

/-- A result object with a boolean `success` field. -/
def isResultObject (v : JsVal) : Bool :=
  match v with
  | .obj fields =>
    match fields.lookup "success" with
    | some (.bool _) => true
    | _ => false
  | _ => false

/-! ## The filter, in the words of the specification -/

/-- A criterion that is absent or empty imposes no restriction; a provided one imposes `P`. -/
def Provided (criterion : Option String) (P : String → Prop) : Prop :=
  match criterion with
  | none => True
  | some s => s = "" ∨ P s

/-- The date `x` is before the date `y`: both are valid dates and the time of `x` is the
smaller one. -/
def DateBefore (rt : Runtime) (x y : String) : Prop :=
  match rt.parseDate x, rt.parseDate y with
  | some a, some b => a < b
  | _, _ => False

/-- The string `needle` is a substring of `haystack`. -/
def IsSubstring (needle haystack : String) : Prop :=
  ∃ before after : List Char, haystack.data = before ++ needle.data ++ after

/-- The lower-cased `search` is a substring of the lower-cased description, when there is
one, or of the lower-cased category id. -/
def SearchMatches (rt : Runtime) (search : String) (e : Expense) : Prop :=
  (∃ d, e.description = some d ∧ IsSubstring (rt.toLowerCase search) (rt.toLowerCase d)) ∨
  IsSubstring (rt.toLowerCase search) (rt.toLowerCase e.category)

/-- The entry `e` satisfies every provided criterion of `c`. -/
def SatisfiesCriteria (rt : Runtime) (c : FilterCriteria) (e : Expense) : Prop :=
  Provided c.category (fun category => e.category = category) ∧
  Provided c.startDate (fun startDate => ¬ DateBefore rt e.date startDate) ∧
  Provided c.endDate (fun endDate => ¬ DateBefore rt endDate e.date) ∧
  Provided c.search (fun search => SearchMatches rt search e)

/-! ## Sample data -/

/-- The time value of `new Date(s)` for the date strings of the sample data: the first
three days of 2024 at midnight UTC, the first of them also written with its time. Any other
text of the sample data is not a date. -/
def sampleParseDate (s : String) : Option Int :=
  if s = "2024-01-01" then some 1704067200000
  else if s = "2024-01-01T00:00:00.000Z" then some 1704067200000
  else if s = "2024-01-02" then some 1704153600000
  else if s = "2024-01-03" then some 1704240000000
  else none

/-- Comparison of two strings by their characters, as `localeCompare` orders words of
lower-case ASCII letters. -/
def sampleLocaleCompare (a b : String) : Int :=
  if a < b then -1 else if a = b then 0 else 1

/-- The double nearest to `0.1`. -/
def tenth : ℚ := 3602879701896397 / 36028797018963968

/-- The double nearest to `0.4`. -/
def fourTenths : ℚ := 3602879701896397 / 9007199254740992

/-- The addition of doubles on the numbers of the sample data. Three sums are rounded:
`0.2 + 0.4` is `0.6000000000000001`, `0.1 + 0.4` is `0.5` and `0.5 + 0.1` is `0.6`; the
other sums of the sample data, of small integers and `0.1 + 0.1`, are exact. -/
def sampleAdd (x y : ℚ) : ℚ :=
  if x = 2 * tenth ∧ y = fourTenths then 5404319552844596 / 9007199254740992
  else if x = tenth ∧ y = fourTenths then 1 / 2
  else if x = 1 / 2 ∧ y = tenth then 5404319552844595 / 9007199254740992
  else x + y

/-- The string conversion of the integers of the sample data: their decimal digits. -/
def sampleNumberToString (q : ℚ) : String :=
  toString q.num

/-- The string conversion of the properties inherited from `Object.prototype`: the
prototype itself under `__proto__`, native functions under the other names. -/
def sampleInheritedText (key : String) : Option String :=
  if key = "__proto__" then some "[object Object]"
  else if key = "constructor" then some "function Object() \x7b [native code] \x7d"
  else if key = "toString" ∨ key = "toLocaleString" ∨ key = "valueOf" ∨
      key = "hasOwnProperty" ∨ key = "isPrototypeOf" ∨ key = "propertyIsEnumerable" ∨
      key = "__defineGetter__" ∨ key = "__defineSetter__" ∨ key = "__lookupGetter__" ∨
      key = "__lookupSetter__" then
    some ("function " ++ key ++ "() \x7b [native code] \x7d")
  else none

/-- A sample engine, used to instantiate statements at concrete inputs: objects print as
`[object Object]`, `JSON.stringify` gives `{}`, `JSON.parse` accepts only `{}`, dates are
those of `sampleParseDate`, lower-casing is that of ASCII letters, strings are compared
by `sampleLocaleCompare`, numbers are added by `sampleAdd` and printed by
`sampleNumberToString`, and the inherited properties are those of `sampleInheritedText`. -/
def sampleRuntime : Runtime :=
  { toStringOther := fun _ => "[object Object]"
    jsonStringify := fun _ => some "{}"
    jsonParse := fun s => if s = "{}" then .ok (.obj []) else .error ⟨"Unexpected token"⟩
    propertyError := fun _ name => ⟨"Cannot read properties of null (reading " ++ name ++ ")"⟩
    parseDate := sampleParseDate
    toLowerCase := fun s => String.mk (s.data.map Char.toLower)
    localeCompare := sampleLocaleCompare
    add := sampleAdd
    numberToString := sampleNumberToString
    inheritedText := sampleInheritedText }

/-- The sample engine with amounts taken as exact numbers. -/
def exactRuntime : Runtime :=
  { sampleRuntime with add := fun x y => x + y }

/-- A browser whose `localStorage` holds a session: `token` is `"t0"` and `user` is `{}`. -/
def signedIn : Browser :=
  { localStorage := fun k => if k = "token" then some "t0" else if k = "user" then some "{}"
      else none
    location := "/index.html" }

/-- A browser whose `localStorage` holds a `token` entry and no `user` entry. -/
def tokenOnly : Browser :=
  { localStorage := fun k => if k = "token" then some "t1" else none
    location := "/index.html" }

/-- The credentials `{email: "a@b.com", password: "x"}`. -/
def sampleCredentials : JsVal :=
  .obj [("email", .str "a@b.com"), ("password", .str "x")]

/-- The payload `{token: "t1", user: {id: 1, name: "A"}}`. -/
def samplePayload : JsVal :=
  .obj [("token", .str "t1"), ("user", .obj [("id", .num 1), ("name", .str "A")])]

/-- A session manager in the Anonymous state. -/
def anonymous : AuthManager :=
  { user := .null, token := .null }

/-- A browser with an empty `localStorage`. -/
def signedOut : Browser :=
  { localStorage := fun _ => none
    location := "/login.html" }

/-- A sample expense with `_id` `"e1"`. -/
def coffee : Expense :=
  { _id := "e1", amount := 12, category := "food", description := some "Morning Coffee",
    date := "2024-01-01" }

/-- A sample expense with `_id` `"e2"`. -/
def bus : Expense :=
  { _id := "e2", amount := 3, category := "transport", description := some "Bus",
    date := "2024-01-02" }

/-- A second record carrying the `_id` `"e1"`. -/
def coffeeAgain : Expense :=
  { _id := "e1", amount := 4, category := "food", description := none,
    date := "2024-01-03" }

/-- A record of amount `0.1` in the category `food`. -/
def snack : Expense :=
  { _id := "e6", amount := tenth, category := "food", description := some "Snack",
    date := "2024-01-01" }

/-- A record of amount `0.1` in the category `transport`. -/
def ride : Expense :=
  { _id := "e7", amount := tenth, category := "transport", description := some "Ride",
    date := "2024-01-02" }

/-- A record of amount `0.4` in the category `food`. -/
def lunch : Expense :=
  { _id := "e8", amount := fourTenths, category := "food", description := some "Lunch",
    date := "2024-01-03" }

/-- A record of amount `5` whose category id is `constructor`. -/
def fiveInherited : Expense :=
  { _id := "e9", amount := 5, category := "constructor", description := none,
    date := "2024-01-01" }

/-- A record of amount `3` whose category id is `constructor`. -/
def threeInherited : Expense :=
  { _id := "e10", amount := 3, category := "constructor", description := none,
    date := "2024-01-02" }

/-- A record of amount `5` whose category id is `__proto__`. -/
def fiveProto : Expense :=
  { _id := "e11", amount := 5, category := "__proto__", description := none,
    date := "2024-01-01" }

/-- A record whose `date` is text that is not a date. -/
def undated : Expense :=
  { _id := "e4", amount := 7, category := "bills", description := some "Power",
    date := "not a date" }

/-- A record dated like `coffee`, the first day of 2024, with the date written with its
time. -/
def coffeeTimed : Expense :=
  { _id := "e5", amount := 2, category := "food", description := some "Espresso",
    date := "2024-01-01T00:00:00.000Z" }

/-! ## Lemmas on `findIndex` -/

theorem findIndex_lt {α : Type} (p : α → Bool) (l : List α) (i : Nat)
    (h : findIndex p l = some i) : i < l.length := by
  induction l generalizing i with
  | nil => simp [findIndex] at h
  | cons x xs ih =>
    unfold findIndex at h
    split at h
    · simp at h; subst h; simp
    · cases hx : findIndex p xs with
      | none => simp [hx] at h
      | some j =>
        simp [hx] at h
        subst h
        have := ih j hx
        simp
        omega

theorem findIndex_get {α : Type} (p : α → Bool) (l : List α) (i : Nat)
    (h : findIndex p l = some i) : ∃ x, l[i]? = some x ∧ p x = true := by
  induction l generalizing i with
  | nil => simp [findIndex] at h
  | cons x xs ih =>
    unfold findIndex at h
    split at h
    · rename_i hp
      simp at h; subst h
      exact ⟨x, by simp, hp⟩
    · cases hx : findIndex p xs with
      | none => simp [hx] at h
      | some j =>
        simp [hx] at h
        subst h
        obtain ⟨y, hy, hpy⟩ := ih j hx
        exact ⟨y, by simpa using hy, hpy⟩

theorem findIndex_first {α : Type} (p : α → Bool) (l : List α) (i : Nat)
    (h : findIndex p l = some i) : ∀ j, j < i → ∀ x, l[j]? = some x → p x = false := by
  induction l generalizing i with
  | nil => simp [findIndex] at h
  | cons x xs ih =>
    unfold findIndex at h
    split at h
    · simp at h; subst h
      intro j hj; omega
    · rename_i hp
      cases hx : findIndex p xs with
      | none => simp [hx] at h
      | some k =>
        simp [hx] at h
        subst h
        intro j hj y hy
        cases j with
        | zero =>
          simp at hy; subst hy
          simpa using hp
        | succ j =>
          simp at hy
          exact ih k hx j (by omega) y hy

theorem findIndex_isSome {α : Type} (p : α → Bool) (l : List α)
    (h : ∃ x ∈ l, p x = true) : ∃ i, findIndex p l = some i := by
  induction l with
  | nil => simp at h
  | cons x xs ih =>
    unfold findIndex
    by_cases hp : p x = true
    · exact ⟨0, by simp [hp]⟩
    · simp only [hp]
      obtain ⟨y, hy, hpy⟩ := h
      simp at hy
      rcases hy with rfl | hy
      · exact absurd hpy hp
      · obtain ⟨i, hi⟩ := ih ⟨y, hy, hpy⟩
        exact ⟨i + 1, by simp [hi]⟩

theorem findIndex_eq_none {α : Type} (p : α → Bool) (l : List α)
    (h : ∀ x ∈ l, p x = false) : findIndex p l = none := by
  induction l with
  | nil => rfl
  | cons x xs ih =>
    unfold findIndex
    have hx : p x = false := h x (by simp)
    simp [hx, ih (fun y hy => h y (by simp [hy]))]

theorem find_set_findIndex {α : Type} (p : α → Bool) (l : List α) (i : Nat) (r : α)
    (h : findIndex p l = some i) (hr : p r = true) : (l.set i r).find? p = some r := by
  induction l generalizing i with
  | nil => simp [findIndex] at h
  | cons x xs ih =>
    unfold findIndex at h
    split at h
    · simp at h; subst h
      simp [hr]
    · rename_i hp
      cases hx : findIndex p xs with
      | none => simp [hx] at h
      | some j =>
        simp [hx] at h
        subst h
        simp [List.find?_cons, hp, ih j hx]

/-! ## Cache mutations -/

/-- C1 (as stated, refuted): with the cache `[coffee]`, whose entry has `_id` `"e1"`, a
successful `createExpense` whose response carries `coffeeAgain`, also with `_id` `"e1"`,
leaves a cache in which that `_id` occurs twice, not exactly once. -/
theorem createExpense_id_occurs_twice :
    (createExpense ⟨[coffee]⟩ (.ok ⟨coffeeAgain⟩)).result = .successExpense coffeeAgain ∧
    idCount coffeeAgain._id (createExpense ⟨[coffee]⟩ (.ok ⟨coffeeAgain⟩)).state.expenses = 2 ∧
    ¬ idCount coffeeAgain._id
        (createExpense ⟨[coffee]⟩ (.ok ⟨coffeeAgain⟩)).state.expenses = 1 := by
  decide

/-- C1 (amended): for every cache and every successful `createExpense` whose response
carries record `r`, the call returns `{success: true, expense: r}`, the cache afterwards
is `r` followed by the previous cache in the same order, and the `_id` of `r` occurs in it
one more time than it occurred before; so it occurs exactly once precisely when no
previous entry had that `_id`. -/
theorem createExpense_prepends (m : ExpenseManager) (r : Expense) :
    (createExpense m (.ok ⟨r⟩)).result = .successExpense r ∧
    (createExpense m (.ok ⟨r⟩)).state.expenses = r :: m.expenses ∧
    (createExpense m (.ok ⟨r⟩)).state.expenses.head? = some r ∧
    idCount r._id (createExpense m (.ok ⟨r⟩)).state.expenses = idCount r._id m.expenses + 1 ∧
    (idCount r._id (createExpense m (.ok ⟨r⟩)).state.expenses = 1 ↔
      ∀ e ∈ m.expenses, e._id ≠ r._id) := by
  refine ⟨rfl, rfl, rfl, ?_, ?_⟩
  · simp [createExpense, idCount]
  · simp [createExpense, idCount, List.countP_eq_zero]

/-- C2: for every cache and every `id` that occurs in it, a successful
`updateExpense(id, updates)` whose response carries record `r` returns
`{success: true, expense: r}`, keeps the cache length, and puts `r` at the position of the
first entry whose `_id` is `id`; every other position keeps its entry, and when `r`
carries the `_id` `id` a lookup of `id` in the cache gives `r`. -/
theorem updateExpense_replaces (m : ExpenseManager) (id : String) (r : Expense)
    (h : ∃ e ∈ m.expenses, e._id = id) :
    (updateExpense m id (.ok ⟨r⟩)).result = .successExpense r ∧
    (updateExpense m id (.ok ⟨r⟩)).state.expenses.length = m.expenses.length ∧
    ∃ i, i < m.expenses.length ∧
      (m.expenses[i]?).map (fun e => e._id) = some id ∧
      (∀ j, j < i → (m.expenses[j]?).map (fun e => e._id) ≠ some id) ∧
      (updateExpense m id (.ok ⟨r⟩)).state.expenses[i]? = some r ∧
      (r._id = id →
        (updateExpense m id (.ok ⟨r⟩)).state.expenses.find? (fun e => e._id == id)
          = some r) ∧
      ∀ j, j ≠ i → (updateExpense m id (.ok ⟨r⟩)).state.expenses[j]? = m.expenses[j]? := by
  obtain ⟨e, he, hid⟩ := h
  obtain ⟨i, hi⟩ := findIndex_isSome (fun e => e._id == id) m.expenses
    ⟨e, he, by simp [hid]⟩
  have hlt := findIndex_lt _ _ _ hi
  obtain ⟨x, hx, hpx⟩ := findIndex_get _ _ _ hi
  have hfirst := findIndex_first _ _ _ hi
  refine ⟨rfl, ?_, i, hlt, ?_, ?_, ?_, ?_, ?_⟩
  · simp [updateExpense, hi]
  · simp at hpx
    simp [hx, hpx]
  · intro j hj hcontra
    cases hy : m.expenses[j]? with
    | none => simp [hy] at hcontra
    | some y =>
      simp [hy] at hcontra
      have := hfirst j hj y hy
      simp [hcontra] at this
  · simp [updateExpense, hi, List.getElem?_set, hlt]
  · intro hr
    simp only [updateExpense, hi]
    exact find_set_findIndex _ _ _ _ hi (by simp [hr])
  · intro j hj
    simp [updateExpense, hi, List.getElem?_set, Ne.symm hj]

/-- C2 (witness): updating `"e2"` in the cache `[coffee, bus]`. -/
theorem updateExpense_replaces_witness :
    (∃ e ∈ (⟨[coffee, bus]⟩ : ExpenseManager).expenses, e._id = "e2") ∧
    (updateExpense ⟨[coffee, bus]⟩ "e2" (.ok ⟨{ bus with amount := 5 }⟩)).state.expenses
      = [coffee, { bus with amount := 5 }] ∧
    (updateExpense ⟨[coffee, bus]⟩ "e2" (.ok ⟨{ bus with amount := 5 }⟩)).state.expenses.length
      = 2 :=
  ⟨⟨bus, by simp, rfl⟩, by decide,
    (updateExpense_replaces ⟨[coffee, bus]⟩ "e2" { bus with amount := 5 }
      ⟨bus, by simp, rfl⟩).2.1⟩

/-- C3 (as stated, refuted): in the cache `[coffee, bus, coffeeAgain]` the `_id` `"e1"` is
present, and a successful `deleteExpense("e1")` shortens the cache by two entries, not by
exactly one. -/
theorem deleteExpense_removes_two :
    (deleteExpense ⟨[coffee, bus, coffeeAgain]⟩ "e1" (.ok ())).result = .success ∧
    (∃ e ∈ [coffee, bus, coffeeAgain], e._id = "e1") ∧
    (deleteExpense ⟨[coffee, bus, coffeeAgain]⟩ "e1" (.ok ())).state.expenses = [bus] ∧
    ¬ (deleteExpense ⟨[coffee, bus, coffeeAgain]⟩ "e1" (.ok ())).state.expenses.length + 1
        = [coffee, bus, coffeeAgain].length := by
  refine ⟨rfl, ⟨coffee, by simp, rfl⟩, by decide, by decide⟩

/-- C3 (amended): for every cache and every `id`, a successful `deleteExpense(id)` returns
`{success: true}` and leaves no entry whose `_id` is `id`; the cache length decreases by
the number of entries that had that `_id` (by exactly one if `id` occurred exactly once,
not at all if it was absent), every entry with another `_id` is kept, and the remaining
entries keep their relative order. -/
theorem deleteExpense_removes_all (m : ExpenseManager) (id : String) :
    (deleteExpense m id (.ok ())).result = .success ∧
    (∀ e ∈ (deleteExpense m id (.ok ())).state.expenses, e._id ≠ id) ∧
    (deleteExpense m id (.ok ())).state.expenses.length + idCount id m.expenses
      = m.expenses.length ∧
    (∀ e ∈ m.expenses, e._id ≠ id → e ∈ (deleteExpense m id (.ok ())).state.expenses) ∧
    List.Sublist (deleteExpense m id (.ok ())).state.expenses m.expenses := by
  refine ⟨rfl, ?_, ?_, ?_, ?_⟩
  · intro e he
    simp [deleteExpense] at he
    exact he.2
  · simp only [deleteExpense, idCount]
    induction m.expenses with
    | nil => rfl
    | cons x xs ih =>
      by_cases hx : x._id = id
      · simp [List.filter_cons, List.countP_cons, hx] at ih ⊢
        omega
      · simp [List.filter_cons, List.countP_cons, hx] at ih ⊢
        omega
  · intro e he hne
    simp [deleteExpense, he, hne]
  · simp [deleteExpense]

/-- C4: when the gateway call made by `getExpenses`, `createExpense`, `updateExpense` or
`deleteExpense` fails with an error of message `m`, the operation returns
`{success: false, error: m}`, emits one error notification carrying `m`, and leaves the
cache exactly as it was. -/
theorem gateway_failure_keeps_cache (m : ExpenseManager) (filters : ListFilters)
    (id : String) (error : JsError) :
    ((getExpenses m filters (.error error)).state = m ∧
      (getExpenses m filters (.error error)).result = .failure error.message ∧
      (getExpenses m filters (.error error)).notifications = [⟨error.message, "error"⟩]) ∧
    ((createExpense m (.error error)).state = m ∧
      (createExpense m (.error error)).result = .failure error.message ∧
      (createExpense m (.error error)).notifications = [⟨error.message, "error"⟩]) ∧
    ((updateExpense m id (.error error)).state = m ∧
      (updateExpense m id (.error error)).result = .failure error.message ∧
      (updateExpense m id (.error error)).notifications = [⟨error.message, "error"⟩]) ∧
    ((deleteExpense m id (.error error)).state = m ∧
      (deleteExpense m id (.error error)).result = .failure error.message ∧
      (deleteExpense m id (.error error)).notifications = [⟨error.message, "error"⟩]) :=
  ⟨⟨rfl, rfl, rfl⟩, ⟨rfl, rfl, rfl⟩, ⟨rfl, rfl, rfl⟩, ⟨rfl, rfl, rfl⟩⟩

/-! ## Gateway and session -/

/-- C5: for every endpoint, options (method, body, `requireAuth`), browser state and response
body, when the response status is 401 `request` removes the persisted `token` and `user`
entries, leaves every other entry, navigates to `/login.html` and fails with the
session-expired error, whose message is the same whatever the body `json` holds. -/
theorem request_unauthorized (rt : Runtime) (fetch : FetchRequest → FetchOutcome)
    (b : Browser) (endpoint : String) (options : RequestOptions)
    (json : Except JsError JsVal)
    (h : fetch (ApiClient.config rt b endpoint options) = .response 401 json) :
    (ApiClient.request rt fetch b endpoint options).2
      = .error ⟨"Session expired. Please login again."⟩ ∧
    (ApiClient.request rt fetch b endpoint options).1.getItem "token" = none ∧
    (ApiClient.request rt fetch b endpoint options).1.getItem "user" = none ∧
    (∀ k, k ≠ "token" → k ≠ "user" →
      (ApiClient.request rt fetch b endpoint options).1.getItem k = b.getItem k) ∧
    (ApiClient.request rt fetch b endpoint options).1.location = "/login.html" := by
  simp only [ApiClient.request, h, ApiClient.tryRequest, ApiClient.catchRequest]
  refine ⟨by simp, by simp [Browser.getItem, Browser.removeItem, Browser.navigate],
    by simp [Browser.getItem, Browser.removeItem, Browser.navigate], ?_,
    by simp [Browser.navigate]⟩
  intro k h1 h2
  simp [Browser.getItem, Browser.removeItem, Browser.navigate, h1, h2]

/-- C5 (witness): a signed-in browser, a `GET /expenses` with `requireAuth`, and a 401
response whose body carries its own `message`. -/
theorem request_unauthorized_witness :
    (ApiClient.request sampleRuntime
        (fun _ => .response 401 (.ok (.obj [("message", .str "Token is not valid")])))
        signedIn "/expenses" { method := some "GET", requireAuth := true }).2
      = .error ⟨"Session expired. Please login again."⟩ ∧
    (ApiClient.request sampleRuntime
        (fun _ => .response 401 (.ok (.obj [("message", .str "Token is not valid")])))
        signedIn "/expenses" { method := some "GET", requireAuth := true }).1.getItem "token"
      = none :=
  ⟨(request_unauthorized sampleRuntime
      (fun _ => .response 401 (.ok (.obj [("message", .str "Token is not valid")])))
      signedIn "/expenses" { method := some "GET", requireAuth := true }
      (.ok (.obj [("message", .str "Token is not valid")])) rfl).1,
   (request_unauthorized sampleRuntime
      (fun _ => .response 401 (.ok (.obj [("message", .str "Token is not valid")])))
      signedIn "/expenses" { method := some "GET", requireAuth := true }
      (.ok (.obj [("message", .str "Token is not valid")])) rfl).2.1⟩

/-- C6: for every prior session state and every login response that carries a non-empty
token `t` and a user `u`, after `login` the in-memory token is `t` and the user is `u`,
the persisted `token` entry is `t`, the persisted `user` entry is what `JSON.stringify(u)`
stores, `isAuthenticated()` is true and `login` returns `{success: true, user: u}`. -/
theorem login_establishes_session (rt : Runtime) (fetch : FetchRequest → FetchOutcome)
    (a : AuthManager) (b : Browser) (credentials response u : JsVal) (t : String)
    (hresp : (ApiClient.post rt fetch b "/auth/login" credentials false).2 = .ok response)
    (htoken : response.getField rt "token" = .ok (.str t)) (ht : t ≠ "")
    (huser : response.getField rt "user" = .ok u) :
    (AuthManager.login rt fetch a b credentials).state.1.token = .str t ∧
    (AuthManager.login rt fetch a b credentials).state.1.user = u ∧
    (AuthManager.login rt fetch a b credentials).state.2.getItem "token" = some t ∧
    (AuthManager.login rt fetch a b credentials).state.2.getItem "user"
      = some ((rt.jsonStringify u).getD "undefined") ∧
    (AuthManager.login rt fetch a b credentials).state.1.isAuthenticated = true ∧
    (AuthManager.login rt fetch a b credentials).result = successUser u := by
  cases hp : ApiClient.post rt fetch b "/auth/login" credentials false with
  | mk b1 r =>
    rw [hp] at hresp
    simp only at hresp
    subst hresp
    have htruthy : (JsVal.str t).truthy = true := by simp [JsVal.truthy, ht]
    simp [AuthManager.login, AuthManager.authenticate, hp, htoken, huser, htruthy,
      AuthManager.setSession, AuthManager.isAuthenticated, Browser.getItem, Browser.setItem,
      JsVal.toStr, bind, Except.bind, pure, Except.pure]

/-- C6 (witness): the scenario of the specification, a login with
`{email: "a@b.com", password: "x"}` answered by `{token: "t1", user: {id: 1, name: "A"}}`. -/
theorem login_establishes_session_witness :
    (AuthManager.login sampleRuntime (fun _ => .response 200 (.ok samplePayload))
        anonymous signedOut sampleCredentials).state.1.isAuthenticated = true ∧
    (AuthManager.login sampleRuntime (fun _ => .response 200 (.ok samplePayload))
        anonymous signedOut sampleCredentials).state.2.getItem "token" = some "t1" :=
  ⟨(login_establishes_session sampleRuntime (fun _ => .response 200 (.ok samplePayload))
      anonymous signedOut sampleCredentials samplePayload
      (.obj [("id", .num 1), ("name", .str "A")]) "t1" rfl rfl (by decide) rfl).2.2.2.2.1,
   (login_establishes_session sampleRuntime (fun _ => .response 200 (.ok samplePayload))
      anonymous signedOut sampleCredentials samplePayload
      (.obj [("id", .num 1), ("name", .str "A")]) "t1" rfl rfl (by decide) rfl).2.2.1⟩

/-- C7 (the failing input): when the gateway resolves with the payload `{}`, which has no
`token` field, `login` and `register` reach no `return` statement: the value returned is
`undefined`, not a result object with a boolean `success` field, and no notification is
emitted. -/
theorem login_without_token_returns_undefined (rt : Runtime) (a : AuthManager) (b : Browser)
    (data : JsVal) :
    (AuthManager.login rt (fun _ => .response 200 (.ok (.obj []))) a b data).result
      = .undefined ∧
    (AuthManager.register rt (fun _ => .response 200 (.ok (.obj []))) a b data).result
      = .undefined ∧
    (AuthManager.login rt (fun _ => .response 200 (.ok (.obj []))) a b data).notifications
      = [] ∧
    isResultObject
      (AuthManager.login rt (fun _ => .response 200 (.ok (.obj []))) a b data).result
      = false := by
  refine ⟨?_, ?_, ?_, ?_⟩ <;>
    simp [AuthManager.login, AuthManager.register, AuthManager.authenticate, ApiClient.post,
      ApiClient.request, ApiClient.tryRequest, statusOk, JsVal.getField, JsVal.truthy,
      isResultObject, bind, Except.bind, pure, Except.pure]

/-- When the gateway call of `login` fails, `login` returns `{success: false, error}` with
the message of the error, emits one error notification and leaves the session manager as
it was. -/
theorem login_gateway_failure (rt : Runtime) (fetch : FetchRequest → FetchOutcome)
    (a : AuthManager) (b : Browser) (credentials : JsVal) (error : JsError)
    (h : (ApiClient.post rt fetch b "/auth/login" credentials false).2 = .error error) :
    (AuthManager.login rt fetch a b credentials).result = failureError error.message ∧
    (AuthManager.login rt fetch a b credentials).notifications = [⟨error.message, "error"⟩] ∧
    (AuthManager.login rt fetch a b credentials).state.1 = a := by
  cases hp : ApiClient.post rt fetch b "/auth/login" credentials false with
  | mk b1 r =>
    rw [hp] at h
    simp only at h
    subst h
    simp [AuthManager.login, AuthManager.authenticate, hp, bind, Except.bind]

/-- C8 (as stated, refuted): with a persisted `token` entry and no `user` entry,
initialization completes and `isAuthenticated()` is true, although the two entries are not
both present. -/
theorem init_token_without_user_is_authenticated :
    tokenOnly.getItem "token" = some "t1" ∧
    tokenOnly.getItem "user" = none ∧
    (AuthManager.init sampleRuntime tokenOnly).map AuthManager.isAuthenticated
      = .ok true := by
  refine ⟨rfl, rfl, rfl⟩

/-- C8 (amended): for every content of persisted storage whose `user` entry is absent,
empty or parseable, initialization completes; afterwards the in-memory token is the stored
`token` entry (`null` if absent), the user is the parsed `user` entry (`null` if absent or
empty), and `isAuthenticated()` is true if and only if the `token` entry is present and
non-empty, whether or not a `user` entry is present. -/
theorem init_restores_session (rt : Runtime) (b : Browser)
    (hparse : ∀ s, b.getItem "user" = some s → s ≠ "" → ∃ u, rt.jsonParse s = .ok u) :
    ∃ a, AuthManager.init rt b = .ok a ∧
      a.token = (match b.getItem "token" with
                 | some t => .str t
                 | none => .null) ∧
      (a.isAuthenticated = true ↔ ∃ t, b.getItem "token" = some t ∧ t ≠ "") ∧
      (∀ s u, b.getItem "user" = some s → s ≠ "" → rt.jsonParse s = .ok u → a.user = u) ∧
      (b.getItem "user" = none ∨ b.getItem "user" = some "" → a.user = .null) := by
  have hauth : ∀ tok : Option String,
      ((match tok with
        | some t => JsVal.str t
        | none => JsVal.null).truthy = true ↔ ∃ t, tok = some t ∧ t ≠ "") := by
    intro tok
    cases tok <;> simp [JsVal.truthy]
  cases hu : b.getItem "user" with
  | none =>
    refine ⟨_, by simp [AuthManager.init, hu]; rfl, rfl, ?_, ?_, ?_⟩
    · exact hauth _
    · intro s u hs; simp at hs
    · intro _; rfl
  | some s =>
    by_cases hs : s = ""
    · subst hs
      refine ⟨_, by simp [AuthManager.init, hu]; rfl, rfl, ?_, ?_, ?_⟩
      · exact hauth _
      · intro s u h1 h2; simp at h1; exact absurd h1.symm h2
      · intro _; rfl
    · obtain ⟨u, hu2⟩ := hparse s hu hs
      refine ⟨_, by simp [AuthManager.init, hu, hs, hu2]; rfl, rfl, ?_, ?_, ?_⟩
      · exact hauth _
      · intro s2 u2 h1 _ h3
        simp at h1; subst h1
        rw [hu2] at h3
        simpa using h3
      · intro h
        simp [hs] at h

/-- C8 (witness): a `localStorage` holding the token `"t0"` and the user text `{}`. -/
theorem init_restores_session_witness :
    (∀ s, signedIn.getItem "user" = some s → s ≠ "" →
      ∃ u, sampleRuntime.jsonParse s = .ok u) ∧
    ∃ a, AuthManager.init sampleRuntime signedIn = .ok a ∧ a.token = .str "t0" ∧
      (a.isAuthenticated = true ↔ ∃ t, signedIn.getItem "token" = some t ∧ t ≠ "") :=
  have h : ∀ s, signedIn.getItem "user" = some s → s ≠ "" →
      ∃ u, sampleRuntime.jsonParse s = .ok u := by
    intro s hs _
    have : s = "{}" := by
      have h2 : signedIn.getItem "user" = some "{}" := rfl
      rw [h2] at hs
      exact (Option.some.inj hs).symm
    subst this
    exact ⟨.obj [], rfl⟩
  ⟨h, by
    obtain ⟨a, h1, h2, h3, _⟩ := init_restores_session sampleRuntime signedIn h
    exact ⟨a, h1, h2, h3⟩⟩

/-- When the `user` entry is non-empty text that `JSON.parse` rejects, the constructor of
`AuthManager` throws the error of `JSON.parse`. -/
theorem init_unparseable_user_throws (rt : Runtime) (b : Browser) (s : String)
    (error : JsError) (hs : b.getItem "user" = some s) (hne : s ≠ "")
    (hparse : rt.jsonParse s = .error error) :
    AuthManager.init rt b = .error error := by
  simp [AuthManager.init, hs, hne, hparse]

/-! ## Filtering -/

theorem includes_iff (haystack needle : String) :
    includes haystack needle = true ↔ IsSubstring needle haystack := by
  simp only [includes, decide_eq_true_eq, IsSubstring, List.IsInfix]
  constructor
  · rintro ⟨s, t, h⟩
    exact ⟨s, t, h.symm⟩
  · rintro ⟨s, t, h⟩
    exact ⟨s, t, h.symm⟩

theorem dateLt_iff (rt : Runtime) (x y : String) :
    dateLt rt x y = true ↔ DateBefore rt x y := by
  unfold dateLt DateBefore
  split <;> simp

theorem dateLt_eq_false_iff (rt : Runtime) (x y : String) :
    dateLt rt x y = false ↔ ¬ DateBefore rt x y := by
  rw [← dateLt_iff]
  simp

theorem matchesSearch_iff (rt : Runtime) (e : Expense) (q : String) :
    matchesSearch rt e (rt.toLowerCase q) = true ↔ SearchMatches rt q e := by
  unfold matchesSearch SearchMatches
  cases hd : e.description <;> simp [includes_iff]

theorem matchesCriteria_iff (rt : Runtime) (c : FilterCriteria) (e : Expense) :
    matchesCriteria rt c e = true ↔ SatisfiesCriteria rt c e := by
  obtain ⟨category, startDate, endDate, search⟩ := c
  rcases category with _ | cat <;> rcases startDate with _ | sd <;>
    rcases endDate with _ | ed <;> rcases search with _ | q
  all_goals simp only [matchesCriteria, SatisfiesCriteria, Provided]
  all_goals (try by_cases h1 : cat = "")
  all_goals (try by_cases h2 : sd = "")
  all_goals (try by_cases h3 : ed = "")
  all_goals (try by_cases h4 : q = "")
  all_goals (try subst h1)
  all_goals (try subst h2)
  all_goals (try subst h3)
  all_goals (try subst h4)
  all_goals simp [*, dateLt_iff, dateLt_eq_false_iff, matchesSearch_iff]
  all_goals tauto

/-- C9: for every cache and every criteria, `filterExpenses` returns exactly the cache
entries, in cache order, that satisfy every provided criterion (category equal, date not
before `startDate`, date not after `endDate`, lower-cased search string a substring of the
lower-cased description or category id); a criterion that is absent or empty imposes no
restriction, so criteria that are all absent or empty return the whole cache. -/
theorem filterExpenses_spec (rt : Runtime) (m : ExpenseManager) (c : FilterCriteria) :
    filterExpenses rt m c
      = m.expenses.filter
          (fun e => @decide (SatisfiesCriteria rt c e) (Classical.propDecidable _)) ∧
    (∀ e, e ∈ filterExpenses rt m c ↔ e ∈ m.expenses ∧ SatisfiesCriteria rt c e) ∧
    List.Sublist (filterExpenses rt m c) m.expenses ∧
    ((truthyStr c.category = false ∧ truthyStr c.startDate = false ∧
        truthyStr c.endDate = false ∧ truthyStr c.search = false) →
      filterExpenses rt m c = m.expenses) ∧
    filterExpenses rt m {} = m.expenses := by
  refine ⟨?_, ?_, ?_, ?_, ?_⟩
  · unfold filterExpenses
    apply List.filter_congr
    intro e _
    rw [Bool.eq_iff_iff, matchesCriteria_iff]
    simp
  · intro e
    simp [filterExpenses, matchesCriteria_iff]
  · simp [filterExpenses]
  · rintro ⟨h1, h2, h3, h4⟩
    unfold filterExpenses
    rw [List.filter_eq_self]
    intro e _
    rw [matchesCriteria_iff]
    obtain ⟨category, startDate, endDate, search⟩ := c
    rcases category with _ | cat <;> rcases startDate with _ | sd <;>
      rcases endDate with _ | ed <;> rcases search with _ | q <;>
      simp_all [SatisfiesCriteria, Provided, truthyStr]
  · unfold filterExpenses
    rw [List.filter_eq_self]
    intro e _
    rfl

/-- The scenario of the specification: the search `coffee` over the cache
`[coffee, bus]` returns only the first entry. -/
theorem filterExpenses_search_coffee :
    filterExpenses sampleRuntime ⟨[coffee, bus]⟩ { search := some "coffee" } = [coffee] := by
  decide

/-- C10: `filterExpenses` is idempotent: filtering with `c` the result of filtering a cache
with `c` gives the same sequence as filtering once. -/
theorem filterExpenses_idempotent (rt : Runtime) (m : ExpenseManager) (c : FilterCriteria) :
    filterExpenses rt { m with expenses := filterExpenses rt m c } c
      = filterExpenses rt m c := by
  simp [filterExpenses, List.filter_filter]

/-- C16 (as stated, refuted): the entry `coffeeAgain` has no description and the search
string `food` is not empty, yet `filterExpenses` includes the entry, because its category
id contains the search string. -/
theorem filterExpenses_includes_undescribed :
    coffeeAgain.description = none ∧
    filterExpenses sampleRuntime ⟨[coffeeAgain]⟩ { search := some "food" } = [coffeeAgain] ∧
    coffeeAgain ∈ filterExpenses sampleRuntime ⟨[coffeeAgain]⟩ { search := some "food" } := by
  decide

/-- C16 (amended): for every cache, every criteria with a non-empty search string and every
cache entry that has no description, `filterExpenses` evaluates the search on that entry
without failing, the description never matches, and the entry is included exactly when the
lower-cased search string is a substring of its lower-cased category id and the other
provided criteria hold. -/
theorem filterExpenses_undescribed (rt : Runtime) (m : ExpenseManager) (c : FilterCriteria)
    (e : Expense) (search : String) (hd : e.description = none)
    (hs : c.search = some search) (hne : search ≠ "") :
    matchesSearch rt e (rt.toLowerCase search)
      = includes (rt.toLowerCase e.category) (rt.toLowerCase search) ∧
    (e ∈ filterExpenses rt m c ↔
      e ∈ m.expenses ∧
      IsSubstring (rt.toLowerCase search) (rt.toLowerCase e.category) ∧
      Provided c.category (fun category => e.category = category) ∧
      Provided c.startDate (fun startDate => ¬ DateBefore rt e.date startDate) ∧
      Provided c.endDate (fun endDate => ¬ DateBefore rt endDate e.date)) := by
  constructor
  · simp [matchesSearch, hd]
  · simp only [filterExpenses, List.mem_filter, matchesCriteria_iff, SatisfiesCriteria, hs,
      Provided, SearchMatches, hd]
    simp [hne]
    tauto

/-- C16 (witness): the entry `coffeeAgain`, without description, under the search `food`. -/
theorem filterExpenses_undescribed_witness :
    coffeeAgain.description = none ∧
    matchesSearch sampleRuntime coffeeAgain (sampleRuntime.toLowerCase "food")
      = includes (sampleRuntime.toLowerCase coffeeAgain.category)
          (sampleRuntime.toLowerCase "food") :=
  ⟨rfl, (filterExpenses_undescribed sampleRuntime ⟨[coffeeAgain]⟩ { search := some "food" }
    coffeeAgain "food" rfl rfl (by decide)).1⟩

/-! ## Update of an absent id -/

/-- C17: for every cache and every `id` that does not occur in it, a successful
`updateExpense(id, updates)` whose response carries record `r` leaves the cache exactly as
it was (same entries, same order, same length) and returns `{success: true, expense: r}`. -/
theorem updateExpense_absent (m : ExpenseManager) (id : String) (r : Expense)
    (h : ∀ e ∈ m.expenses, e._id ≠ id) :
    (updateExpense m id (.ok ⟨r⟩)).state = m ∧
    (updateExpense m id (.ok ⟨r⟩)).state.expenses = m.expenses ∧
    (updateExpense m id (.ok ⟨r⟩)).state.expenses.length = m.expenses.length ∧
    (updateExpense m id (.ok ⟨r⟩)).result = .successExpense r := by
  have hnone : findIndex (fun e : Expense => e._id == id) m.expenses = none :=
    findIndex_eq_none _ _ (fun e he => by simpa using h e he)
  simp [updateExpense, hnone]

/-- C17 (witness): updating the id `"e9"`, absent from the cache `[coffee, bus]`. -/
theorem updateExpense_absent_witness :
    (∀ e ∈ (⟨[coffee, bus]⟩ : ExpenseManager).expenses, e._id ≠ "e9") ∧
    (updateExpense ⟨[coffee, bus]⟩ "e9" (.ok ⟨coffeeAgain⟩)).state.expenses
      = [coffee, bus] :=
  ⟨by decide, (updateExpense_absent ⟨[coffee, bus]⟩ "e9" coffeeAgain (by decide)).2.1⟩

/-! ## Categories -/

/-- C15: `getCategory` is total: for every id it returns a member of the catalog of eight
entries; if the id is that of a catalog entry it returns that entry, so the id of the
result is the input, and for every other id it returns the entry whose id is `other`. -/
theorem getCategory_total (categoryId : String) :
    categories.length = 8 ∧
    getCategory categoryId ∈ categories ∧
    (∀ c ∈ categories, c.id = categoryId →
      getCategory categoryId = c ∧ (getCategory categoryId).id = categoryId) ∧
    ((∀ c ∈ categories, c.id ≠ categoryId) → (getCategory categoryId).id = "other") := by
  refine ⟨rfl, ?_, ?_, ?_⟩
  · unfold getCategory
    split
    · rename_i c hc
      exact List.mem_of_find?_eq_some hc
    · exact List.get_mem _ _ _
  · intro c hc hid
    subst hid
    simp only [categories, List.mem_cons, List.mem_singleton, List.not_mem_nil,
      or_false] at hc
    rcases hc with rfl | rfl | rfl | rfl | rfl | rfl | rfl | rfl <;> exact ⟨rfl, rfl⟩
  · intro h
    have hnone : categories.find? (fun c => c.id == categoryId) = none := by
      rw [List.find?_eq_none]
      intro c hc
      simpa using h c hc
    simp only [getCategory, hnone]
    rfl

/-! ## Totals -/

theorem lookup_putOwn {α : Type} (o : List (String × α)) (k c : String) (v : α) :
    (putOwn o k v).lookup c = if c = k then some v else o.lookup c := by
  induction o with
  | nil =>
    by_cases h : c = k
    · simp [putOwn, List.lookup, h]
    · have hb : (c == k) = false := by simp [h]
      simp [putOwn, List.lookup, h, hb]
  | cons p rest ih =>
    obtain ⟨k1, v1⟩ := p
    by_cases hk : k1 = k
    · subst hk
      by_cases h : c = k1
      · simp [putOwn, List.lookup, h]
      · have hb : (c == k1) = false := by simp [h]
        simp [putOwn, List.lookup, h, hb]
    · by_cases h1 : c = k1
      · subst h1
        simp [putOwn, List.lookup, hk]
      · have hb : (c == k1) = false := by simp [h1]
        simp [putOwn, hk, List.lookup, hb, ih]

theorem sum_putOwn {α : Type} (f : α → ℚ) (o : List (String × α)) (k : String) (v : α) :
    ((putOwn o k v).map (fun p => f p.2)).sum
      = (o.map (fun p => f p.2)).sum - ((o.lookup k).map f).getD 0 + f v := by
  induction o with
  | nil => simp [putOwn]
  | cons p rest ih =>
    obtain ⟨k1, v1⟩ := p
    by_cases hk : k1 = k
    · subst hk
      simp [putOwn, List.lookup]
      ring
    · have hb : (k == k1) = false := by simp [Ne.symm hk]
      simp [putOwn, hk, List.lookup, hb, ih]
      ring

theorem keys_putOwn {α : Type} (o : List (String × α)) (k : String) (v : α) :
    (putOwn o k v).map Prod.fst
      = if k ∈ o.map Prod.fst then o.map Prod.fst else o.map Prod.fst ++ [k] := by
  induction o with
  | nil => simp [putOwn]
  | cons p rest ih =>
    obtain ⟨k1, v1⟩ := p
    by_cases hk : k1 = k
    · subst hk
      simp [putOwn]
    · have hk2 : ¬ k = k1 := Ne.symm hk
      simp only [putOwn, hk, if_false, List.map_cons, ih, List.mem_cons, hk2, false_or]
      split <;> simp

theorem isSome_lookup {α : Type} (o : List (String × α)) (c : String) :
    (o.lookup c).isSome = true ↔ c ∈ o.map Prod.fst := by
  induction o with
  | nil => simp
  | cons p rest ih =>
    obtain ⟨k1, v1⟩ := p
    by_cases h : c = k1
    · simp [List.lookup, h]
    · have hb : (c == k1) = false := by simp [h]
      simp [List.lookup, hb, ih, h]

theorem addedSum_append (rt : Runtime) (l : List Expense) (e : Expense) :
    addedSum rt (l ++ [e]) = rt.add (addedSum rt l) e.amount := by
  simp [addedSum, List.foldl_append]

theorem addedSum_exact (rt : Runtime) (h : ExactAddition rt) (l : List Expense) :
    addedSum rt l = amountSum l := by
  induction l using List.reverseRecOn with
  | nil => simp [addedSum, amountSum]
  | append_singleton l e ih => rw [addedSum_append, ih, h]; simp [amountSum]

theorem amountSum_append (l : List Expense) (e : Expense) :
    amountSum (l ++ [e]) = amountSum l + e.amount := by
  simp [amountSum]

theorem inCategory_append (c : String) (l : List Expense) (e : Expense) :
    inCategory c (l ++ [e]) = inCategory c l ++ (if e.category = c then [e] else []) := by
  by_cases h : e.category = c <;> simp [inCategory, List.filter_append, List.filter_cons, h]

theorem inCategory_eq_nil_iff (c : String) (l : List Expense) :
    inCategory c l = [] ↔ ¬ ∃ e ∈ l, e.category = c := by
  simp [inCategory, List.filter_eq_nil_iff]

theorem orZeroPlus_own (rt : Runtime) (P : List Expense) (o : List (String × PropertyValue))
    (e : Expense) (hown : OwnName rt e.category)
    (hget : ∀ c, o.lookup c
      = if inCategory c P = [] then none
        else some (.num (addedSum rt (inCategory c P)))) :
    orZeroPlus rt (getProperty rt o e.category) e.amount
      = .num (rt.add (addedSum rt (inCategory e.category P)) e.amount) := by
  unfold getProperty
  rw [hget e.category]
  by_cases hnil : inCategory e.category P = []
  · simp [hnil, hown.1, orZeroPlus, addedSum]
  · simp only [hnil, if_false, orZeroPlus]
    by_cases hz : addedSum rt (inCategory e.category P) = 0
    · simp [hz]
    · simp [hz]

theorem addToCategory_invariant (rt : Runtime) (P : List Expense)
    (o : List (String × PropertyValue)) (e : Expense) (hown : OwnName rt e.category)
    (hget : ∀ c, o.lookup c
      = if inCategory c P = [] then none
        else some (.num (addedSum rt (inCategory c P))))
    (hnodup : (o.map Prod.fst).Nodup)
    (hsum : ExactAddition rt → (o.map (fun p => p.2.number)).sum = amountSum P) :
    (∀ c, (addToCategory rt o e).lookup c
      = if inCategory c (P ++ [e]) = [] then none
        else some (.num (addedSum rt (inCategory c (P ++ [e]))))) ∧
    ((addToCategory rt o e).map Prod.fst).Nodup ∧
    (ExactAddition rt →
      ((addToCategory rt o e).map (fun p => p.2.number)).sum = amountSum (P ++ [e])) := by
  have hstep : addToCategory rt o e
      = putOwn o e.category
          (.num (rt.add (addedSum rt (inCategory e.category P)) e.amount)) := by
    simp only [addToCategory, setProperty, hown.2, if_false,
      orZeroPlus_own rt P o e hown hget]
  rw [hstep]
  refine ⟨?_, ?_, ?_⟩
  · intro c
    rw [lookup_putOwn, inCategory_append]
    by_cases hc : c = e.category
    · subst hc
      simp [addedSum_append]
    · have hc2 : ¬ e.category = c := fun h => hc h.symm
      simp [hc, hc2, hget c]
  · rw [keys_putOwn]
    split
    · exact hnodup
    · rename_i hmem
      rw [List.nodup_append]
      refine ⟨hnodup, by simp, ?_⟩
      simpa using hmem
  · intro hexact
    rw [sum_putOwn, hsum hexact, hget e.category, amountSum_append, hexact]
    by_cases hnil : inCategory e.category P = []
    · simp [hnil, PropertyValue.number, addedSum]
    · simp [hnil, PropertyValue.number]
      ring

theorem foldl_addToCategory_invariant (rt : Runtime) (S P : List Expense)
    (o : List (String × PropertyValue)) (hown : ∀ e ∈ S, OwnName rt e.category)
    (hget : ∀ c, o.lookup c
      = if inCategory c P = [] then none
        else some (.num (addedSum rt (inCategory c P))))
    (hnodup : (o.map Prod.fst).Nodup)
    (hsum : ExactAddition rt → (o.map (fun p => p.2.number)).sum = amountSum P) :
    (∀ c, (S.foldl (addToCategory rt) o).lookup c
      = if inCategory c (P ++ S) = [] then none
        else some (.num (addedSum rt (inCategory c (P ++ S))))) ∧
    ((S.foldl (addToCategory rt) o).map Prod.fst).Nodup ∧
    (ExactAddition rt →
      ((S.foldl (addToCategory rt) o).map (fun p => p.2.number)).sum
        = amountSum (P ++ S)) := by
  induction S generalizing P o with
  | nil => simpa using ⟨hget, hnodup, hsum⟩
  | cons e rest ih =>
    obtain ⟨h1, h2, h3⟩ :=
      addToCategory_invariant rt P o e (hown e (by simp)) hget hnodup hsum
    have := ih (P ++ [e]) (addToCategory rt o e)
      (fun x hx => hown x (by simp [hx])) h1 h2 h3
    simpa using this

theorem byCategory_invariant (rt : Runtime) (l : List Expense)
    (hown : ∀ e ∈ l, OwnName rt e.category) :
    (∀ c, (l.foldl (addToCategory rt) []).lookup c
      = if inCategory c l = [] then none
        else some (.num (addedSum rt (inCategory c l)))) ∧
    ((l.foldl (addToCategory rt) []).map Prod.fst).Nodup ∧
    (ExactAddition rt →
      ((l.foldl (addToCategory rt) []).map (fun p => p.2.number)).sum = amountSum l) := by
  have := foldl_addToCategory_invariant rt l [] [] hown
    (by intro c; simp [inCategory]) (by simp) (by intro _; simp [amountSum])
  simpa using this

/-- C13 (as stated, refuted): with the single entry `fiveProto`, of category id `__proto__`,
`byCategory` has no key although that id occurs in the cache; and with the entries
`snack`, `ride`, `lunch` of amounts `0.1`, `0.1`, `0.4` the total is `0.6000000000000001`
while the values of `byCategory`, `0.5` and `0.1`, sum to `0.6`, whether they are added as
doubles or exactly. -/
theorem calculateTotals_keys_and_sum_differ :
    fiveProto.category = "__proto__" ∧
    (calculateTotals sampleRuntime ⟨[fiveProto]⟩).byCategory = [] ∧
    (calculateTotals sampleRuntime ⟨[snack, ride, lunch]⟩).total
      = 5404319552844596 / 9007199254740992 ∧
    (calculateTotals sampleRuntime ⟨[snack, ride, lunch]⟩).byCategory
      = [("food", .num (1 / 2)), ("transport", .num tenth)] ∧
    sampleRuntime.add (sampleRuntime.add 0 (1 / 2)) tenth
      = 5404319552844595 / 9007199254740992 ∧
    ¬ sampleRuntime.add (sampleRuntime.add 0 (1 / 2)) tenth
      = (calculateTotals sampleRuntime ⟨[snack, ride, lunch]⟩).total ∧
    ¬ (1 / 2 + tenth : ℚ) = (calculateTotals sampleRuntime ⟨[snack, ride, lunch]⟩).total := by
  have htotal : (calculateTotals sampleRuntime ⟨[snack, ride, lunch]⟩).total
      = 5404319552844596 / 9007199254740992 := by
    simp [calculateTotals, sampleRuntime, sampleAdd, snack, ride, lunch, tenth, fourTenths]
    norm_num
  have hvalues : sampleRuntime.add (sampleRuntime.add 0 (1 / 2)) tenth
      = 5404319552844595 / 9007199254740992 := by
    simp [sampleRuntime, sampleAdd, tenth, fourTenths]
    norm_num
  refine ⟨rfl, ?_, htotal, ?_, hvalues, ?_, ?_⟩
  · simp [calculateTotals, addToCategory, setProperty, fiveProto]
  · simp [calculateTotals, addToCategory, setProperty, getProperty, orZeroPlus, putOwn,
      sampleRuntime, sampleAdd, sampleInheritedText, snack, ride, lunch, tenth, fourTenths,
      List.lookup]
    norm_num
  · rw [htotal, hvalues]
    norm_num
  · rw [htotal]
    norm_num [tenth]

/-- C13 (amended): for every cache, `calculateTotals` returns `total` equal to the sum of
`amount` over all entries as the engine adds them, one by one from `0` in cache order (`0`
for the empty cache). When no category id of the cache names a property that every object
inherits, the keys of `byCategory`, each present once, are exactly the category ids that
occur, and the value at a key `c` is the sum, added in the same way, of `amount` over the
entries with category `c`. When moreover amounts are taken as exact numbers, these sums
are the exact sums and the values of `byCategory` sum to `total`. -/
theorem calculateTotals_spec (rt : Runtime) (m : ExpenseManager) :
    (calculateTotals rt m).total = addedSum rt m.expenses ∧
    (calculateTotals rt ⟨[]⟩).total = 0 ∧
    (ExactAddition rt → (calculateTotals rt m).total = amountSum m.expenses) ∧
    ((∀ e ∈ m.expenses, OwnName rt e.category) →
      (∀ c, c ∈ (calculateTotals rt m).byCategory.map Prod.fst ↔
        ∃ e ∈ m.expenses, e.category = c) ∧
      ((calculateTotals rt m).byCategory.map Prod.fst).Nodup ∧
      (∀ c, (∃ e ∈ m.expenses, e.category = c) →
        (calculateTotals rt m).byCategory.lookup c
          = some (.num (addedSum rt (inCategory c m.expenses)))) ∧
      (ExactAddition rt →
        (∀ c, (∃ e ∈ m.expenses, e.category = c) →
          (calculateTotals rt m).byCategory.lookup c
            = some (.num (amountSum (inCategory c m.expenses)))) ∧
        ((calculateTotals rt m).byCategory.map (fun p => p.2.number)).sum
          = (calculateTotals rt m).total)) := by
  refine ⟨rfl, rfl, fun hexact => addedSum_exact rt hexact m.expenses, ?_⟩
  intro hown
  obtain ⟨hget, hnodup, hsum⟩ := byCategory_invariant rt m.expenses hown
  have hlookup : ∀ c, (∃ e ∈ m.expenses, e.category = c) →
      (calculateTotals rt m).byCategory.lookup c
        = some (.num (addedSum rt (inCategory c m.expenses))) := by
    intro c hc
    show (m.expenses.foldl (addToCategory rt) []).lookup c = _
    rw [hget c]
    have hnil : ¬ inCategory c m.expenses = [] := by
      rw [inCategory_eq_nil_iff, not_not]
      exact hc
    simp [hnil]
  refine ⟨?_, hnodup, hlookup, ?_⟩
  · intro c
    rw [← isSome_lookup]
    show ((m.expenses.foldl (addToCategory rt) []).lookup c).isSome = true ↔ _
    rw [hget c]
    by_cases hnil : inCategory c m.expenses = []
    · simp only [hnil, if_true]
      rw [inCategory_eq_nil_iff] at hnil
      simp [hnil]
    · simp only [hnil, if_false]
      rw [inCategory_eq_nil_iff, not_not] at hnil
      simp [hnil]
  · intro hexact
    constructor
    · intro c hc
      rw [hlookup c hc, addedSum_exact rt hexact]
    · show _ = addedSum rt m.expenses
      rw [addedSum_exact rt hexact]
      exact hsum hexact

/-- C13 (witness): the cache `[coffee, bus, coffeeAgain]`, of categories `food` and
`transport`, with amounts taken as exact numbers: the values `16` and `3` sum to the
total. -/
theorem calculateTotals_spec_witness :
    (∀ e ∈ (⟨[coffee, bus, coffeeAgain]⟩ : ExpenseManager).expenses,
      OwnName exactRuntime e.category) ∧
    ExactAddition exactRuntime ∧
    ((calculateTotals exactRuntime ⟨[coffee, bus, coffeeAgain]⟩).byCategory.map
        (fun p => p.2.number)).sum
      = (calculateTotals exactRuntime ⟨[coffee, bus, coffeeAgain]⟩).total :=
  have hown : ∀ e ∈ (⟨[coffee, bus, coffeeAgain]⟩ : ExpenseManager).expenses,
      OwnName exactRuntime e.category := by
    intro e he
    simp only [List.mem_cons, List.mem_singleton, List.not_mem_nil, or_false] at he
    rcases he with rfl | rfl | rfl <;> exact ⟨rfl, by decide⟩
  have hexact : ExactAddition exactRuntime := fun _ _ => rfl
  ⟨hown, hexact,
    (((calculateTotals_spec exactRuntime ⟨[coffee, bus, coffeeAgain]⟩).2.2.2 hown).2.2.2
      hexact).2⟩

/-- The totals of the cache `[coffee, bus, coffeeAgain]`: 19 in all, 16 for `food` and 3
for `transport`. -/
theorem calculateTotals_sample :
    (calculateTotals sampleRuntime ⟨[coffee, bus, coffeeAgain]⟩).total = 19 ∧
    (calculateTotals sampleRuntime ⟨[coffee, bus, coffeeAgain]⟩).byCategory
      = [("food", .num 16), ("transport", .num 3)] := by
  constructor
  · simp [calculateTotals, sampleRuntime, sampleAdd, coffee, bus, coffeeAgain, tenth,
      fourTenths]
    norm_num
  · simp [calculateTotals, addToCategory, setProperty, getProperty, orZeroPlus, putOwn,
      sampleRuntime, sampleAdd, sampleInheritedText, coffee, bus, coffeeAgain, tenth,
      fourTenths, List.lookup]
    norm_num

/-- C14 (as stated, refuted): the entries `fiveInherited` and `threeInherited` have the
category id `constructor`, under which every object inherits a function. With amounts
taken as exact numbers, the cache `[fiveInherited, threeInherited]` gives at that key the
text of the function followed by `53`, and its permutation
`[threeInherited, fiveInherited]` the same text followed by `35`. -/
theorem calculateTotals_order_dependent :
    ExactAddition exactRuntime ∧
    ([threeInherited, fiveInherited] : List Expense).Perm [fiveInherited, threeInherited] ∧
    (calculateTotals exactRuntime ⟨[fiveInherited, threeInherited]⟩).byCategory
      = [("constructor", .text "function Object() \x7b [native code] \x7d53")] ∧
    (calculateTotals exactRuntime ⟨[threeInherited, fiveInherited]⟩).byCategory
      = [("constructor", .text "function Object() \x7b [native code] \x7d35")] ∧
    ¬ (calculateTotals exactRuntime ⟨[threeInherited, fiveInherited]⟩).byCategory.lookup
          "constructor"
      = (calculateTotals exactRuntime ⟨[fiveInherited, threeInherited]⟩).byCategory.lookup
          "constructor" := by
  have h1 : (calculateTotals exactRuntime ⟨[fiveInherited, threeInherited]⟩).byCategory
      = [("constructor", .text "function Object() \x7b [native code] \x7d53")] := by
    decide
  have h2 : (calculateTotals exactRuntime ⟨[threeInherited, fiveInherited]⟩).byCategory
      = [("constructor", .text "function Object() \x7b [native code] \x7d35")] := by
    decide
  refine ⟨fun _ _ => rfl, List.Perm.swap _ _ _, h1, h2, ?_⟩
  rw [h1, h2]
  decide

/-- C14 (amended): with amounts taken as exact numbers, for every cache none of whose
category ids names a property that every object inherits, and for every permutation of
that cache, `calculateTotals` gives the same total, and the two `byCategory` objects hold
the same value, or none, at every key. The result is a function of the cache alone, which
the call does not change, so a second call on the same cache returns the same result. -/
theorem calculateTotals_perm (rt : Runtime) (m permuted : ExpenseManager)
    (hperm : permuted.expenses.Perm m.expenses)
    (hown : ∀ e ∈ m.expenses, OwnName rt e.category) (hexact : ExactAddition rt) :
    (calculateTotals rt permuted).total = (calculateTotals rt m).total ∧
    (∀ c, (calculateTotals rt permuted).byCategory.lookup c
      = (calculateTotals rt m).byCategory.lookup c) ∧
    (∀ c, getProperty rt (calculateTotals rt permuted).byCategory c
      = getProperty rt (calculateTotals rt m).byCategory c) ∧
    (∀ again : ExpenseManager, again.expenses = m.expenses →
      calculateTotals rt again = calculateTotals rt m) := by
  have hsum : ∀ l1 l2 : List Expense, l1.Perm l2 → amountSum l1 = amountSum l2 := by
    intro l1 l2 hp
    exact (hp.map (fun e => e.amount)).sum_eq
  have hown2 : ∀ e ∈ permuted.expenses, OwnName rt e.category :=
    fun e he => hown e (hperm.mem_iff.1 he)
  have hlookup : ∀ c, (calculateTotals rt permuted).byCategory.lookup c
      = (calculateTotals rt m).byCategory.lookup c := by
    intro c
    show (permuted.expenses.foldl (addToCategory rt) []).lookup c
      = (m.expenses.foldl (addToCategory rt) []).lookup c
    rw [(byCategory_invariant rt permuted.expenses hown2).1 c,
      (byCategory_invariant rt m.expenses hown).1 c]
    have hp : (inCategory c permuted.expenses).Perm (inCategory c m.expenses) :=
      hperm.filter _
    have hnil : inCategory c permuted.expenses = [] ↔ inCategory c m.expenses = [] := by
      constructor
      · intro h1
        rw [h1] at hp
        exact hp.symm.eq_nil
      · intro h1
        rw [h1] at hp
        exact hp.eq_nil
    by_cases h1 : inCategory c m.expenses = []
    · simp [h1, hnil.2 h1]
    · have h2 : ¬ inCategory c permuted.expenses = [] := fun h2 => h1 (hnil.1 h2)
      simp [h1, h2, addedSum_exact rt hexact, hsum _ _ hp]
  refine ⟨?_, hlookup, ?_, ?_⟩
  · show addedSum rt permuted.expenses = addedSum rt m.expenses
    rw [addedSum_exact rt hexact, addedSum_exact rt hexact, hsum _ _ hperm]
  · intro c
    simp only [getProperty, hlookup c]
  · intro again hagain
    simp [calculateTotals, hagain]

/-- C14 (witness): the cache `[coffee, bus, coffeeAgain]` and its rearrangement
`[coffeeAgain, coffee, bus]`, with amounts taken as exact numbers. -/
theorem calculateTotals_perm_witness :
    ([coffeeAgain, coffee, bus] : List Expense).Perm [coffee, bus, coffeeAgain] ∧
    (∀ e ∈ (⟨[coffee, bus, coffeeAgain]⟩ : ExpenseManager).expenses,
      OwnName exactRuntime e.category) ∧
    ExactAddition exactRuntime ∧
    (calculateTotals exactRuntime ⟨[coffeeAgain, coffee, bus]⟩).total
      = (calculateTotals exactRuntime ⟨[coffee, bus, coffeeAgain]⟩).total ∧
    (calculateTotals exactRuntime ⟨[coffeeAgain, coffee, bus]⟩).byCategory.lookup "food"
      = (calculateTotals exactRuntime ⟨[coffee, bus, coffeeAgain]⟩).byCategory.lookup
          "food" :=
  have hp : ([coffeeAgain, coffee, bus] : List Expense).Perm [coffee, bus, coffeeAgain] :=
    (List.perm_append_comm :
      ([coffeeAgain] ++ [coffee, bus] : List Expense).Perm ([coffee, bus] ++ [coffeeAgain]))
  have hown : ∀ e ∈ (⟨[coffee, bus, coffeeAgain]⟩ : ExpenseManager).expenses,
      OwnName exactRuntime e.category := by
    intro e he
    simp only [List.mem_cons, List.mem_singleton, List.not_mem_nil, or_false] at he
    rcases he with rfl | rfl | rfl <;> exact ⟨rfl, by decide⟩
  have hexact : ExactAddition exactRuntime := fun _ _ => rfl
  ⟨hp, hown, hexact,
    (calculateTotals_perm exactRuntime ⟨[coffee, bus, coffeeAgain]⟩
      ⟨[coffeeAgain, coffee, bus]⟩ hp hown hexact).1,
    (calculateTotals_perm exactRuntime ⟨[coffee, bus, coffeeAgain]⟩
      ⟨[coffeeAgain, coffee, bus]⟩ hp hown hexact).2.1 "food"⟩

/-! ## Sorting -/

theorem pairwise_orderedInsert {α : Type} (r : α → α → Prop) [DecidableRel r] (a : α)
    (l : List α) (hl : l.Pairwise r) (htot : ∀ b ∈ l, ¬ r a b → r b a)
    (htrans : ∀ b ∈ l, ∀ c ∈ l, r a b → r b c → r a c) :
    (l.orderedInsert r a).Pairwise r := by
  induction l with
  | nil => simp
  | cons b l ih =>
    simp only [List.orderedInsert]
    split_ifs with h
    · rw [List.pairwise_cons]
      refine ⟨?_, hl⟩
      intro c hc
      rcases List.mem_cons.1 hc with rfl | hc
      · exact h
      · exact htrans b (by simp) c (by simp [hc]) h ((List.pairwise_cons.1 hl).1 c hc)
    · rw [List.pairwise_cons]
      refine ⟨?_, ih (List.pairwise_cons.1 hl).2 (fun c hc => htot c (by simp [hc]))
        (fun c hc d hd => htrans c (by simp [hc]) d (by simp [hd]))⟩
      intro c hc
      rcases (List.mem_orderedInsert r).1 hc with rfl | hc
      · exact htot b (by simp) h
      · exact (List.pairwise_cons.1 hl).1 c hc

theorem pairwise_insertionSort {α : Type} (r : α → α → Prop) [DecidableRel r] (l : List α)
    (htot : ∀ a ∈ l, ∀ b ∈ l, r a b ∨ r b a)
    (htrans : ∀ a ∈ l, ∀ b ∈ l, ∀ c ∈ l, r a b → r b c → r a c) :
    (l.insertionSort r).Pairwise r := by
  induction l with
  | nil => simp
  | cons a l ih =>
    simp only [List.insertionSort]
    apply pairwise_orderedInsert
    · exact ih (fun x hx y hy => htot x (by simp [hx]) y (by simp [hy]))
        (fun x hx y hy z hz => htrans x (by simp [hx]) y (by simp [hy]) z (by simp [hz]))
    · intro b hb hnot
      rw [List.mem_insertionSort] at hb
      rcases htot a (by simp) b (by simp [hb]) with h | h
      · exact absurd h hnot
      · exact h
    · intro b hb c hc
      rw [List.mem_insertionSort] at hb hc
      exact htrans a (by simp) b (by simp [hb]) c (by simp [hc])

theorem orderedInsert_of_forall_not {α : Type} (r : α → α → Prop) [DecidableRel r] (a : α)
    (l : List α) (h : ∀ b ∈ l, ¬ r a b) : l.orderedInsert r a = l ++ [a] := by
  induction l with
  | nil => simp
  | cons b l ih =>
    have hb : ¬ r a b := h b (by simp)
    simp [List.orderedInsert, hb, ih (fun c hc => h c (by simp [hc]))]

theorem insertionSort_eq_reverse {α : Type} (r : α → α → Prop) [DecidableRel r]
    (l : List α) (h : l.Pairwise (fun a b => ¬ r a b)) :
    l.insertionSort r = l.reverse := by
  induction l with
  | nil => simp
  | cons a l ih =>
    rw [List.pairwise_cons] at h
    simp only [List.insertionSort, ih h.2, List.reverse_cons]
    exact orderedInsert_of_forall_not r a _ (fun b hb => h.1 b (by simpa using hb))

theorem sortCompare_desc (rt : Runtime) (k : String) (a b : Expense) :
    sortCompare (sortCallback rt k "desc") a b
      = - sortCompare (sortCallback rt k "asc") a b := by
  have h : ¬ ("asc" : String) = "desc" := by decide
  simp only [sortCompare, sortCallback, h, if_true, if_false]
  cases sortComparison rt k a b <;> simp

theorem sortCompare_date (rt : Runtime) (a b : Expense) (x y : Int)
    (hx : rt.parseDate a.date = some x) (hy : rt.parseDate b.date = some y) :
    sortCompare (sortCallback rt "date" "asc") a b = (x : ℚ) - (y : ℚ) := by
  have h : ¬ ("asc" : String) = "desc" := by decide
  simp [sortCompare, sortCallback, sortComparison, h, hx, hy]

theorem sortCompare_amount (rt : Runtime) (a b : Expense) :
    sortCompare (sortCallback rt "amount" "asc") a b = a.amount - b.amount := by
  have h : ¬ ("asc" : String) = "desc" := by decide
  have h2 : ¬ ("amount" : String) = "date" := by decide
  simp [sortCompare, sortCallback, sortComparison, h, h2]

theorem sortCompare_category (rt : Runtime) (a b : Expense) :
    sortCompare (sortCallback rt "category" "asc") a b
      = (rt.localeCompare a.category b.category : ℚ) := by
  have h : ¬ ("asc" : String) = "desc" := by decide
  have h2 : ¬ ("category" : String) = "date" := by decide
  have h3 : ¬ ("category" : String) = "amount" := by decide
  simp [sortCompare, sortCallback, sortComparison, h, h2, h3]

theorem asc_consistent (rt : Runtime) (l : List Expense) (k : String)
    (hk : k = "date" ∨ k = "amount" ∨ k = "category") (hlaw : ConsistentCollation rt)
    (hvalid : k = "date" → ValidDates rt l) :
    (∀ a ∈ l, ∀ b ∈ l, sortCompare (sortCallback rt k "asc") a b ≤ 0 ↔ KeyLe rt k a b) ∧
    (∀ a ∈ l, ∀ b ∈ l, sortCompare (sortCallback rt k "asc") a b < 0 ↔
      0 < sortCompare (sortCallback rt k "asc") b a) ∧
    (∀ a ∈ l, ∀ b ∈ l, ∀ c ∈ l, sortCompare (sortCallback rt k "asc") a b ≤ 0 →
      sortCompare (sortCallback rt k "asc") b c ≤ 0 →
      sortCompare (sortCallback rt k "asc") a c ≤ 0) := by
  rcases hk with rfl | rfl | rfl
  · have hv := hvalid rfl
    refine ⟨?_, ?_, ?_⟩
    · intro a ha b hb
      obtain ⟨x, hx⟩ := hv a ha
      obtain ⟨y, hy⟩ := hv b hb
      rw [sortCompare_date rt a b x y hx hy]
      simp only [KeyLe, if_true, hx, hy, Option.some.injEq]
      constructor
      · intro h
        refine ⟨x, y, rfl, rfl, ?_⟩
        have : (x : ℚ) ≤ (y : ℚ) := by linarith
        exact_mod_cast this
      · rintro ⟨x1, y1, rfl, rfl, h⟩
        have : (x : ℚ) ≤ (y : ℚ) := by exact_mod_cast h
        linarith
    · intro a ha b hb
      obtain ⟨x, hx⟩ := hv a ha
      obtain ⟨y, hy⟩ := hv b hb
      rw [sortCompare_date rt a b x y hx hy, sortCompare_date rt b a y x hy hx]
      constructor <;> intro h <;> linarith
    · intro a ha b hb c hc
      obtain ⟨x, hx⟩ := hv a ha
      obtain ⟨y, hy⟩ := hv b hb
      obtain ⟨z, hz⟩ := hv c hc
      rw [sortCompare_date rt a b x y hx hy, sortCompare_date rt b c y z hy hz,
        sortCompare_date rt a c x z hx hz]
      intro h1 h2
      linarith
  · have h2 : ¬ ("amount" : String) = "date" := by decide
    refine ⟨?_, ?_, ?_⟩
    · intro a _ b _
      rw [sortCompare_amount]
      simp [KeyLe, h2]
    · intro a _ b _
      rw [sortCompare_amount, sortCompare_amount]
      constructor <;> intro h <;> linarith
    · intro a _ b _ c _
      rw [sortCompare_amount, sortCompare_amount, sortCompare_amount]
      intro h1 h2
      linarith
  · have h2 : ¬ ("category" : String) = "date" := by decide
    have h3 : ¬ ("category" : String) = "amount" := by decide
    refine ⟨?_, ?_, ?_⟩
    · intro a _ b _
      rw [sortCompare_category]
      simp only [KeyLe, h2, h3, if_true, if_false]
      exact_mod_cast Iff.rfl
    · intro a _ b _
      rw [sortCompare_category, sortCompare_category]
      exact_mod_cast hlaw.1 a.category b.category
    · intro a _ b _ c _
      rw [sortCompare_category, sortCompare_category, sortCompare_category]
      intro h1 h2
      have := hlaw.2 a.category b.category c.category (by exact_mod_cast h1)
        (by exact_mod_cast h2)
      exact_mod_cast this

theorem sampleLocaleCompare_neg (a b : String) : sampleLocaleCompare a b < 0 ↔ a < b := by
  unfold sampleLocaleCompare
  split_ifs with h1 h2 <;> simp [h1]

theorem sampleLocaleCompare_pos (a b : String) : 0 < sampleLocaleCompare a b ↔ b < a := by
  unfold sampleLocaleCompare
  split_ifs with h1 h2
  · simp [lt_asymm h1]
  · simp [h2]
  · exact ⟨fun _ => lt_of_le_of_ne (not_lt.1 h1) (Ne.symm h2), fun _ => by decide⟩

theorem sampleRuntime_consistent : ConsistentCollation sampleRuntime := by
  have hle : ∀ a b : String, sampleLocaleCompare a b ≤ 0 ↔ a ≤ b := by
    intro a b
    rw [← not_lt, sampleLocaleCompare_pos, not_lt]
  constructor
  · intro a b
    show sampleLocaleCompare a b < 0 ↔ 0 < sampleLocaleCompare b a
    rw [sampleLocaleCompare_neg, sampleLocaleCompare_pos]
  · intro a b c
    show sampleLocaleCompare a b ≤ 0 → sampleLocaleCompare b c ≤ 0 →
      sampleLocaleCompare a c ≤ 0
    rw [hle, hle, hle]
    exact le_trans

/-- C12 (as stated, refuted): with the list `[coffeeAgain, undated, coffee]`, whose second
date is not a date, the callback returns `NaN` for every pair that involves that record;
`sortExpenses` by ascending date leaves the list as it is, the record of 3 January before
that of 1 January, which is not ordered by date. -/
theorem sortExpenses_invalid_date_unordered :
    sortExpenses sampleRuntime [coffeeAgain, undated, coffee] "date" "asc"
      = [coffeeAgain, undated, coffee] ∧
    sampleRuntime.parseDate coffeeAgain.date = some 1704240000000 ∧
    sampleRuntime.parseDate coffee.date = some 1704067200000 ∧
    sampleRuntime.parseDate undated.date = none ∧
    ¬ (sortExpenses sampleRuntime [coffeeAgain, undated, coffee] "date" "asc").Pairwise
        (fun a b => KeyLe sampleRuntime "date" a b) := by
  have hsort : sortExpenses sampleRuntime [coffeeAgain, undated, coffee] "date" "asc"
      = [coffeeAgain, undated, coffee] := by
    simp [sortExpenses, arraySort, List.insertionSort, List.orderedInsert, sortCompare,
      sortCallback, sortComparison, sampleRuntime, sampleParseDate, coffeeAgain, undated,
      coffee]
  refine ⟨hsort, rfl, rfl, rfl, ?_⟩
  rw [hsort]
  intro h
  have h1 := (List.pairwise_cons.1 h).1 coffee (by simp)
  simp [KeyLe, sampleRuntime, sampleParseDate, coffeeAgain, coffee] at h1

/-- C12 (amended): for every list `L`, key `k` in `date`, `amount`, `category` and order,
`sortExpenses(L, k, order)` returns a new sequence that is a permutation of `L`; when
every date of `L` is a valid date (needed for the key `date` only) the result is ordered
by `k`, non-decreasing for `asc` and non-increasing for `desc`, dates and amounts compared
as numbers and categories by `localeCompare`, a consistent comparator. -/
theorem sortExpenses_sorted (rt : Runtime) (l : List Expense) (k order : String)
    (hk : k = "date" ∨ k = "amount" ∨ k = "category") (hlaw : ConsistentCollation rt) :
    (sortExpenses rt l k order).Perm l ∧
    ((k = "date" → ValidDates rt l) →
      (sortExpenses rt l k "asc").Pairwise (fun a b => KeyLe rt k a b) ∧
      (sortExpenses rt l k "desc").Pairwise (fun a b => KeyLe rt k b a)) := by
  refine ⟨List.perm_insertionSort _ _, ?_⟩
  intro hvalid
  obtain ⟨hle, hanti, htrans⟩ := asc_consistent rt l k hk hlaw hvalid
  have hflip : ∀ a ∈ l, ∀ b ∈ l, 0 ≤ sortCompare (sortCallback rt k "asc") a b ↔
      sortCompare (sortCallback rt k "asc") b a ≤ 0 := by
    intro a ha b hb
    rw [← not_lt, hanti a ha b hb, not_lt]
  constructor
  · have hs : (sortExpenses rt l k "asc").Pairwise
        (fun a b => sortCompare (sortCallback rt k "asc") a b ≤ 0) := by
      apply pairwise_insertionSort
      · intro a ha b hb
        rcases le_or_lt (sortCompare (sortCallback rt k "asc") a b) 0 with h | h
        · exact Or.inl h
        · exact Or.inr (le_of_lt ((hanti b hb a ha).2 h))
      · exact htrans
    refine hs.imp_of_mem ?_
    intro a b ha hb h
    have ha2 : a ∈ l := (List.mem_insertionSort _).1 ha
    have hb2 : b ∈ l := (List.mem_insertionSort _).1 hb
    exact (hle a ha2 b hb2).1 h
  · have hs : (sortExpenses rt l k "desc").Pairwise
        (fun a b => sortCompare (sortCallback rt k "desc") a b ≤ 0) := by
      apply pairwise_insertionSort
      · intro a ha b hb
        simp only [sortCompare_desc, neg_nonpos]
        rcases le_or_lt 0 (sortCompare (sortCallback rt k "asc") a b) with h | h
        · exact Or.inl h
        · exact Or.inr (le_of_lt ((hanti a ha b hb).1 h))
      · intro a ha b hb c hc
        simp only [sortCompare_desc, neg_nonpos]
        intro h1 h2
        rw [hflip a ha c hc]
        exact htrans c hc b hb a ha ((hflip b hb c hc).1 h2) ((hflip a ha b hb).1 h1)
    refine hs.imp_of_mem ?_
    intro a b ha hb h
    have ha2 : a ∈ l := (List.mem_insertionSort _).1 ha
    have hb2 : b ∈ l := (List.mem_insertionSort _).1 hb
    simp only [sortCompare_desc, neg_nonpos] at h
    exact (hle b hb2 a ha2).1 ((hflip a ha2 b hb2).1 h)

/-- C12 (witness): the list `[coffeeAgain, bus, coffee]`, of valid dates, sorted by date
under the sample engine. -/
theorem sortExpenses_sorted_witness :
    ConsistentCollation sampleRuntime ∧
    ValidDates sampleRuntime [coffeeAgain, bus, coffee] ∧
    (sortExpenses sampleRuntime [coffeeAgain, bus, coffee] "date" "asc").Perm
      [coffeeAgain, bus, coffee] ∧
    (sortExpenses sampleRuntime [coffeeAgain, bus, coffee] "date" "asc").Pairwise
      (fun a b => KeyLe sampleRuntime "date" a b) :=
  have hvalid : ValidDates sampleRuntime [coffeeAgain, bus, coffee] := by
    simp [ValidDates, sampleRuntime, sampleParseDate, coffeeAgain, bus, coffee]
  ⟨sampleRuntime_consistent, hvalid,
    (sortExpenses_sorted sampleRuntime [coffeeAgain, bus, coffee] "date" "asc" (Or.inl rfl)
      sampleRuntime_consistent).1,
    ((sortExpenses_sorted sampleRuntime [coffeeAgain, bus, coffee] "date" "asc" (Or.inl rfl)
      sampleRuntime_consistent).2 (fun _ => hvalid)).1⟩

/-- The list `[coffeeAgain, bus, coffee]` sorted by ascending and by descending date. -/
theorem sortExpenses_sample :
    sortExpenses sampleRuntime [coffeeAgain, bus, coffee] "date" "asc"
      = [coffee, bus, coffeeAgain] ∧
    sortExpenses sampleRuntime [coffee, bus, coffeeAgain] "date" "desc"
      = [coffeeAgain, bus, coffee] := by
  constructor <;>
    simp [sortExpenses, arraySort, List.insertionSort, List.orderedInsert, sortCompare,
      sortCallback, sortComparison, sampleRuntime, sampleParseDate, coffeeAgain, bus,
      coffee] <;>
    norm_num

theorem noTie_ne (rt : Runtime) (k : String) (a b : Expense)
    (hk : k = "date" ∨ k = "amount" ∨ k = "category") (h : NoTie rt k a b) :
    sortCompare (sortCallback rt k "asc") a b ≠ 0 := by
  rcases hk with rfl | rfl | rfl
  · simp only [NoTie, if_true] at h
    obtain ⟨x, y, hx, hy, hne⟩ := h
    rw [sortCompare_date rt a b x y hx hy]
    intro h0
    apply hne
    have : (x : ℚ) = (y : ℚ) := by linarith
    exact_mod_cast this
  · have h2 : ¬ ("amount" : String) = "date" := by decide
    simp only [NoTie, h2, if_true, if_false] at h
    rw [sortCompare_amount]
    intro h0
    exact h (by linarith)
  · have h2 : ¬ ("category" : String) = "date" := by decide
    have h3 : ¬ ("category" : String) = "amount" := by decide
    simp only [NoTie, h2, h3, if_true, if_false] at h
    rw [sortCompare_category]
    exact_mod_cast h

/-- C11 (as stated, refuted): the records `coffee` and `coffeeTimed` carry different values
of `date`, which denote the same time. Sorting `[coffee, coffeeTimed]` by ascending date
keeps the order, sorting that result by descending date keeps it again, and this is not the
reverse `[coffeeTimed, coffee]`. -/
theorem sortExpenses_tie_not_reversed :
    coffee.date ≠ coffeeTimed.date ∧
    sampleRuntime.parseDate coffee.date = sampleRuntime.parseDate coffeeTimed.date ∧
    sortExpenses sampleRuntime [coffee, coffeeTimed] "date" "asc" = [coffee, coffeeTimed] ∧
    sortExpenses sampleRuntime
        (sortExpenses sampleRuntime [coffee, coffeeTimed] "date" "asc") "date" "desc"
      = [coffee, coffeeTimed] ∧
    ¬ sortExpenses sampleRuntime
        (sortExpenses sampleRuntime [coffee, coffeeTimed] "date" "asc") "date" "desc"
      = (sortExpenses sampleRuntime [coffee, coffeeTimed] "date" "asc").reverse := by
  have hasc : sortExpenses sampleRuntime [coffee, coffeeTimed] "date" "asc"
      = [coffee, coffeeTimed] := by
    simp [sortExpenses, arraySort, List.insertionSort, List.orderedInsert, sortCompare,
      sortCallback, sortComparison, sampleRuntime, sampleParseDate, coffee, coffeeTimed]
  have hdesc : sortExpenses sampleRuntime [coffee, coffeeTimed] "date" "desc"
      = [coffee, coffeeTimed] := by
    simp [sortExpenses, arraySort, List.insertionSort, List.orderedInsert, sortCompare,
      sortCallback, sortComparison, sampleRuntime, sampleParseDate, coffee, coffeeTimed]
  refine ⟨by decide, rfl, hasc, by rw [hasc, hdesc], ?_⟩
  rw [hasc, hdesc]
  decide

/-- C11 (amended): for every key `k` in `date`, `amount`, `category` and every list `L` in
which no two elements tie under the comparison by `k` (dates valid and of different times,
amounts different, categories not comparing equal under `localeCompare`, a consistent
comparator), `sortExpenses(sortExpenses(L, k, 'asc'), k, 'desc')` is the reverse of
`sortExpenses(L, k, 'asc')`. -/
theorem sortExpenses_desc_reverses (rt : Runtime) (l : List Expense) (k : String)
    (hk : k = "date" ∨ k = "amount" ∨ k = "category") (hlaw : ConsistentCollation rt)
    (hnotie : l.Pairwise (fun a b => NoTie rt k a b)) :
    sortExpenses rt (sortExpenses rt l k "asc") k "desc"
      = (sortExpenses rt l k "asc").reverse := by
  match l, hnotie with
  | [], _ => simp [sortExpenses, arraySort]
  | [x], _ => simp [sortExpenses, arraySort, List.insertionSort, List.orderedInsert]
  | x :: y :: rest, hnotie =>
    have hvalid : k = "date" → ValidDates rt (x :: y :: rest) := by
      intro hkd
      subst hkd
      have hx := (List.pairwise_cons.1 hnotie).1
      intro e he
      rcases List.mem_cons.1 he with rfl | he
      · have h := hx y (by simp)
        simp only [NoTie, if_true] at h
        obtain ⟨a, _, ha, _, _⟩ := h
        exact ⟨a, ha⟩
      · have h := hx e he
        simp only [NoTie, if_true] at h
        obtain ⟨_, b, _, hb, _⟩ := h
        exact ⟨b, hb⟩
    obtain ⟨_, hanti, htrans⟩ := asc_consistent rt (x :: y :: rest) k hk hlaw hvalid
    have hs : (sortExpenses rt (x :: y :: rest) k "asc").Pairwise
        (fun a b => sortCompare (sortCallback rt k "asc") a b ≤ 0) := by
      apply pairwise_insertionSort
      · intro a ha b hb
        rcases le_or_lt (sortCompare (sortCallback rt k "asc") a b) 0 with h | h
        · exact Or.inl h
        · exact Or.inr (le_of_lt ((hanti b hb a ha).2 h))
      · exact htrans
    have hperm : (sortExpenses rt (x :: y :: rest) k "asc").Perm (x :: y :: rest) :=
      List.perm_insertionSort _ _
    have hne : (x :: y :: rest).Pairwise
        (fun a b => NoTie rt k a b ∨ NoTie rt k b a) :=
      hnotie.imp (fun h => Or.inl h)
    have hne2 : (sortExpenses rt (x :: y :: rest) k "asc").Pairwise
        (fun a b => NoTie rt k a b ∨ NoTie rt k b a) :=
      (hperm.pairwise_iff (fun h => h.symm)).2 hne
    have hlt : (sortExpenses rt (x :: y :: rest) k "asc").Pairwise
        (fun a b => ¬ sortCompare (sortCallback rt k "desc") a b ≤ 0) := by
      refine (hs.and hne2).imp_of_mem ?_
      intro a b ha hb h
      obtain ⟨h1, h2⟩ := h
      have ha2 : a ∈ x :: y :: rest := (List.mem_insertionSort _).1 ha
      have hb2 : b ∈ x :: y :: rest := (List.mem_insertionSort _).1 hb
      rw [sortCompare_desc, neg_nonpos, not_le]
      rcases h2 with h2 | h2
      · exact lt_of_le_of_ne h1 (noTie_ne rt k a b hk h2)
      · have hba := noTie_ne rt k b a hk h2
        rcases lt_or_eq_of_le h1 with h | h
        · exact h
        · exfalso
          have h3 : ¬ sortCompare (sortCallback rt k "asc") b a < 0 := by
            rw [hanti b hb2 a ha2, h]
            exact lt_irrefl 0
          have h4 : ¬ 0 < sortCompare (sortCallback rt k "asc") b a := by
            rw [← hanti a ha2 b hb2, h]
            exact lt_irrefl 0
          exact hba (le_antisymm (not_lt.1 h4) (not_lt.1 h3))
    exact insertionSort_eq_reverse _ _ hlt

/-- C11 (witness): the list `[coffeeAgain, bus, coffee]`, of three different valid dates,
sorted by date under the sample engine. -/
theorem sortExpenses_desc_reverses_witness :
    ([coffeeAgain, bus, coffee] : List Expense).Pairwise
      (fun a b => NoTie sampleRuntime "date" a b) ∧
    sortExpenses sampleRuntime
        (sortExpenses sampleRuntime [coffeeAgain, bus, coffee] "date" "asc") "date" "desc"
      = (sortExpenses sampleRuntime [coffeeAgain, bus, coffee] "date" "asc").reverse :=
  have h : ([coffeeAgain, bus, coffee] : List Expense).Pairwise
      (fun a b => NoTie sampleRuntime "date" a b) := by
    simp [NoTie, sampleRuntime, sampleParseDate, coffeeAgain, bus, coffee]
  ⟨h, sortExpenses_desc_reverses sampleRuntime [coffeeAgain, bus, coffee] "date"
    (Or.inl rfl) sampleRuntime_consistent h⟩

end ExpenseTracker
